import Mathlib

/-!
# Verification development for the TikTok bio-verification reconciliation engine

Shallow embedding of `src/jaime-tiktok-bot/index.js` (the authoritative
implementation of the verification engine).  JavaScript strings are modelled
as Lean `String`/`List Char`; the relevant JS string primitives
(`toUpperCase`, `includes`, `replace` with a string pattern, truthiness) are
embedded as explicit functions.  Network and Discord effects are modelled by
explicit inputs (fetch-outcome scripts, environment records) and an explicit
engine state that is threaded through the handlers.
-/

namespace TikTokVerify

/-! ## JS string primitives -/

/-- ASCII upper-casing of one character, the model of what
`String.prototype.toUpperCase` does on the ASCII range (`a`..`z` map to
`A`..`Z`, everything else is untouched). -/
def upChar (c : Char) : Char :=
  if 97 ≤ c.toNat ∧ c.toNat ≤ 122 then Char.ofNat (c.toNat - 32) else c

/-- ASCII lower-casing of one character (model of `toLowerCase`). -/
def lowChar (c : Char) : Char :=
  if 65 ≤ c.toNat ∧ c.toNat ≤ 90 then Char.ofNat (c.toNat + 32) else c

/-- Model of `s.toUpperCase()`. -/
def jsToUpper (s : String) : String := ⟨s.data.map upChar⟩

/-- Model of `s.toLowerCase()`. -/
def jsToLower (s : String) : String := ⟨s.data.map lowChar⟩

/-- Substring containment on character lists: `containsSub l sub = true` iff
`sub` occurs contiguously inside `l`.  Model of `l.includes(sub)`. -/
def containsSub (l sub : List Char) : Bool :=
  match l with
  | [] => sub.isEmpty
  | _ :: t => sub.isPrefixOf l || containsSub t sub

/-- Model of `s.includes(sub)` on JS strings. -/
def strIncludes (s sub : String) : Bool := containsSub s.data sub.data

/-- Replace the first occurrence of `pat` by `rep`, scanning left to right.
Model of JS `String.prototype.replace` with a *string* pattern, which
replaces only the first occurrence. -/
def replaceFirstAux (pat rep : List Char) : List Char → List Char
  | [] => []
  | c :: rest =>
    if pat.isPrefixOf (c :: rest) then rep ++ (c :: rest).drop pat.length
    else c :: replaceFirstAux pat rep rest

/-- Model of `s.replace(pat, rep)` (string pattern: first occurrence only). -/
def replaceFirst (s pat rep : String) : String :=
  ⟨replaceFirstAux pat.data rep.data s.data⟩

/-- JS truthiness of a `string | null | undefined` value: `null`/`undefined`
and the empty string are falsy, every other string is truthy. -/
def jsTruthyStr (o : Option String) : Bool :=
  match o with
  | some s => !(s == "")
  | none => false

/-! ## Code generator (`getNamePrefix`, `generateCode`) -/

/-- The characters JS regex `\s` matches, restricted to ASCII. -/
def isJsWs (c : Char) : Bool :=
  c == ' ' || c == '\t' || c == '\n' || c == '\r' || c == '\x0b' || c == '\x0c'

/-- ASCII alphanumeric test, the model of the character class `[a-zA-Z0-9]`. -/
def isAsciiAlnum (c : Char) : Bool :=
  (65 ≤ c.toNat && c.toNat ≤ 90) || (97 ≤ c.toNat && c.toNat ≤ 122) ||
  (48 ≤ c.toNat && c.toNat ≤ 57)

/-- `name.split(/\s+/)[0]`.  JS `split(/\s+/)` produces a leading `""`
element when the string starts with whitespace, so the first element is the
leading run of non-whitespace characters (empty when the name starts with
whitespace). -/
def jsFirstSplitWs (name : String) : List Char :=
  name.data.takeWhile (fun c => !isJsWs c)

/-- Embedding of `getNamePrefix` (index.js:564-568):
`name.split(/\s+/)[0].replace(/[^a-zA-Z0-9]/g, '').toUpperCase()`
then `clean.substring(0, 10) || 'VERIFY'`. -/
def getNamePrefix (name : String) : String :=
  let clean := ((jsFirstSplitWs name).filter isAsciiAlnum).map upChar
  let t := clean.take 10
  if t.isEmpty then "VERIFY" else ⟨t⟩

/-- Modelled from the spec (§4.1 / claim C5 wording): PREFIX is the first
whitespace-delimited *token* of the name — i.e. the first maximal nonempty
run of non-whitespace characters — stripped to alphanumerics, upper-cased,
truncated to 10 characters, defaulting to `"VERIFY"` when the cleaned token
is empty.  Kept separate from `getNamePrefix` (the source embedding) so the
two can be compared. -/
def specNamePrefix (name : String) : String :=
  let tok := (name.data.dropWhile isJsWs).takeWhile (fun c => !isJsWs c)
  let clean := (tok.filter isAsciiAlnum).map upChar
  let t := clean.take 10
  if t.isEmpty then "VERIFY" else ⟨t⟩

/-- Embedding of `generateCode` (index.js:591-595).  The prefix resolution
(`getServerPrefix`) applies `getNamePrefix` to the owner's display name or
the guild name; we take the resolved name as input.  The call
`Math.floor(10000 + Math.random() * 90000)` is modelled by `10000 + r` for a
random draw `r < 90000`. -/
def generateCode (name : String) (r : Nat) : String :=
  getNamePrefix name ++ "-" ++ toString (10000 + r)

/-! ## Matcher -/

/-- The candidate list `[record.code, ...(record.previousCodes || [])]`
built identically at index.js:2100 and index.js:942/990. -/
def allCodes (code : String) (previousCodes : List String) : List String :=
  code :: previousCodes

/-- One candidate test, as performed inside the matching loops
(index.js:2103-2112 and 944-954, 993-1001): the upper-cased bio must contain
the upper-cased code or its `JAIME`→`JAMIE` typo variant. -/
def codeMatches (bioUpper : String) (code : String) : Bool :=
  let codeUpper := jsToUpper code
  let typoVariant := replaceFirst codeUpper "JAIME" "JAMIE"
  strIncludes bioUpper codeUpper || strIncludes bioUpper typoVariant

/-- The `for (const code of allCodes) { ... break }` loop: first candidate
that matches wins. -/
def matchLoop (bioUpper : String) : List String → Option String
  | [] => none
  | c :: rest => if codeMatches bioUpper c then some c else matchLoop bioUpper rest

/-- The whole matcher: upper-case the bio once, then scan the candidates in
order.  This is the shared code of the foreground check (index.js:2097-2112)
and the background sweep (index.js:941-954, 988-1001). -/
def findMatchedCode (bio code : String) (previousCodes : List String) : Option String :=
  matchLoop (jsToUpper bio) (allCodes code previousCodes)

/-! ## Profile fetcher (`fetchTikTokBio`, index.js:682-817)

The HTTP layer is modelled by a `FetchInput`: either the `fetch` call threw
(transport error / abort timeout, the `catch` at index.js:813), or it
produced a response with an `ok` flag and a page.  The page is abstracted to
the observations the extraction code makes on the raw HTML: the capture of
each regex / embedded-JSON probe, in the order the source tries them. -/

/-- The regex / JSON observations `fetchTikTokBio` makes on the HTML body.
Each field is the capture of the corresponding probe (`none` = no match):
* `userDetailStatus`  — `/"webapp\.user-detail":\s*\{"statusCode":(\d+)/` (line 731)
* `rehydrationSignature` — `userInfo.user.signature` of the
  `__UNIVERSAL_DATA_FOR_REHYDRATION__` JSON (lines 744-751)
* `sigiSignature` — `UserModule.users[k].signature` of `SIGI_STATE` (760-769)
* `regexSignature` — capture of `/"signature":"(.*?)"/` (line 780)
* `userInfoSignature` — capture of `/"userInfo":\s*\{[^}]*"signature":"([^"]+)"/` (789)
* `hasEmptySignature` — whether `/"signature":""/` matches (line 795). -/
structure PageData where
  userDetailStatus : Option Nat
  rehydrationSignature : Option String
  sigiSignature : Option String
  regexSignature : Option String
  userInfoSignature : Option String
  hasEmptySignature : Bool
deriving DecidableEq

/-- Outcome of the `fetch(url, ...)` call itself. -/
inductive FetchInput where
  /-- the promise rejected: network error, or the 10s `AbortController` fired -/
  | transportError
  /-- a response arrived; `ok` is `res.ok`, `page` the parsed body -/
  | httpResponse (ok : Bool) (page : PageData)
deriving DecidableEq

/-- The documented return shape of `fetchTikTokBio`
(`// Returns: { bio: string|null, accountNotFound: boolean, emptyBio: boolean }`,
index.js:681).  `bio = none` models JS `bio: null`. -/
structure FetchResult where
  bio : Option String
  accountNotFound : Bool
  emptyBio : Bool
deriving DecidableEq

/-- `bio.replace(/\\"/g, '"')` (index.js:805, first half). -/
def unescapeQuotes : List Char → List Char
  | '\\' :: '"' :: rest => '"' :: unescapeQuotes rest
  | c :: rest => c :: unescapeQuotes rest
  | [] => []

/-- `bio.replace(/\\\\/g, '\\')` (index.js:805, second half). -/
def unescapeBackslashes : List Char → List Char
  | '\\' :: '\\' :: rest => '\\' :: unescapeBackslashes rest
  | c :: rest => c :: unescapeBackslashes rest
  | [] => []

/-- Hex digit test for the `[\dA-Fa-f]` class. -/
def isHexDigit (c : Char) : Bool :=
  (48 ≤ c.toNat && c.toNat ≤ 57) || (65 ≤ c.toNat && c.toNat ≤ 70) ||
  (97 ≤ c.toNat && c.toNat ≤ 102)

/-- Numeric value of a hex digit. -/
def hexVal (c : Char) : Nat :=
  if c.toNat ≤ 57 then c.toNat - 48
  else if c.toNat ≤ 70 then c.toNat - 55
  else c.toNat - 87

/-- `bio.replace(/\\u([\dA-Fa-f]{4})/g, (_, g1) => String.fromCharCode(parseInt(g1, 16)))`
(index.js:806-808).  Left-to-right, non-overlapping, as the JS global
replace scans.  `Char.ofNat` stands in for `String.fromCharCode` (it maps
the surrogate range to `'\0'`, which only affects payloads containing lone
surrogates). -/
def uEscapeValue : List Char → Option Nat
  | 'u' :: a :: b :: c :: d :: _ =>
    if isHexDigit a && isHexDigit b && isHexDigit c && isHexDigit d then
      some (hexVal a * 4096 + hexVal b * 256 + hexVal c * 16 + hexVal d)
    else none
  | _ => none

/-- Scanner for the `\uXXXX` replacement: at `skip = 0` it looks for a
backslash followed by a well-formed escape (checked by `uEscapeValue` on the
tail); on a hit it emits the decoded character and skips the five consumed
characters (`u` and four hex digits) via the counter. -/
def unescapeUnicodeAux : Nat → List Char → List Char
  | _, [] => []
  | skip + 1, _ :: rest => unescapeUnicodeAux skip rest
  | 0, c :: rest =>
    if c = '\\' then
      match uEscapeValue rest with
      | some n => Char.ofNat n :: unescapeUnicodeAux 5 rest
      | none => c :: unescapeUnicodeAux 0 rest
    else c :: unescapeUnicodeAux 0 rest

def unescapeUnicode (l : List Char) : List Char := unescapeUnicodeAux 0 l

/-- `bio.replace(/\\n/g, '\n')` (index.js:809). -/
def unescapeNewlines : List Char → List Char
  | '\\' :: 'n' :: rest => '\n' :: unescapeNewlines rest
  | c :: rest => c :: unescapeNewlines rest
  | [] => []

/-- The whole unescape chain of index.js:805-809, in source order. -/
def unescapeBio (s : String) : String :=
  ⟨unescapeNewlines (unescapeUnicode (unescapeBackslashes (unescapeQuotes s.data)))⟩

/-- Embedding of `fetchTikTokBio` (index.js:682-817).  Note the `!res.ok`
branch (index.js:719-722) returns the *untagged* JS `null` — modelled as
`none` — while every other outcome is a tagged `FetchResult`. -/
def fetchTikTokBio : FetchInput → Option FetchResult
  | .transportError => some ⟨none, false, false⟩
  | .httpResponse ok page =>
    if !ok then none
    else if page.userDetailStatus == some 10221 then some ⟨none, true, false⟩
    else
      let bio1 := if jsTruthyStr page.rehydrationSignature then page.rehydrationSignature else none
      let bio2 := if bio1.isNone then
          (if jsTruthyStr page.sigiSignature then page.sigiSignature else none) else bio1
      let bio3 := if bio2.isNone then
          (if jsTruthyStr page.regexSignature then page.regexSignature else none) else bio2
      let bio4 := if bio3.isNone then
          (if jsTruthyStr page.userInfoSignature then page.userInfoSignature else none) else bio3
      match bio4 with
      | none =>
        if page.hasEmptySignature then some ⟨some "", false, true⟩
        else some ⟨none, false, false⟩
      | some b => some ⟨some (unescapeBio b), false, false⟩

/-! ## Verification state store

`index.js` keeps pending verifications in the in-memory map
`pendingVerifications`, mirrored to Redis when `REDIS_URL` is configured and
otherwise to the local JSON file (`savePendingVerifications` writes the whole
map to the file only when Redis is absent, index.js:402-416).  Verified
users are stored per guild via `addVerifiedUser`; here the store is modelled
per-guild as an association list keyed by Discord id (tags and timestamps,
which no claim mentions, are omitted). -/

/-- A pending verification record
`{ username, code, previousCodes, guildId }` (index.js:77, 2312-2318).
The old modal flow stores no `previousCodes` field; `record.previousCodes || []`
makes that read as `[]`, so it is modelled as the empty list. -/
structure PendingRecord where
  username : String
  code : String
  previousCodes : List String
  guildId : String
deriving DecidableEq

/-- The slice of a verified-user entry the claims are about. -/
structure VerifiedUser where
  tiktokUsername : String
deriving DecidableEq

/-- Association-list lookup keyed by Discord id (model of `Map.get`). -/
def alookup {α : Type} (k : String) (l : List (String × α)) : Option α :=
  (l.find? (fun p => p.1 == k)).map (fun p => p.2)

/-- Association-list removal (model of `Map.delete` / `redis.del`). -/
def aremove {α : Type} (k : String) (l : List (String × α)) : List (String × α) :=
  l.filter (fun p => !(p.1 == k))

/-- Association-list upsert (model of `Map.set` / `redis.set`). -/
def aset {α : Type} (k : String) (v : α) (l : List (String × α)) : List (String × α) :=
  (k, v) :: aremove k l

/-- The engine's mutable state.  `redis = none` models an unconfigured
Redis; effect counters (`granted`, `notified`, `fetchCount`) record the side
effects the handlers invoke. -/
structure EngineState where
  pendingMem : List (String × PendingRecord)
  redis : Option (List (String × PendingRecord))
  pendingFile : List (String × PendingRecord)
  verified : List (String × VerifiedUser)
  active : List String
  granted : List String
  notified : List String
  fetchCount : Nat
deriving DecidableEq

/-- The deletion pattern of the foreground check (index.js:2143-2148 and
2174-2179) and of the background *match* branch (index.js:1047-1053):
`pendingVerifications.delete(id)`, then `redisDeletePending(id)` when Redis
is configured, else `savePendingVerifications()` (which rewrites the file
from the in-memory map). -/
def deletePendingAndSave (st : EngineState) (id : String) : EngineState :=
  let mem := aremove id st.pendingMem
  match st.redis with
  | some r => { st with pendingMem := mem, redis := some (aremove id r) }
  | none => { st with pendingMem := mem, pendingFile := mem }

/-- The deletion in the background `accountNotFound` branch
(index.js:929-934): `pendingVerifications.delete(id)` and, only when Redis
is configured, `redisDeletePending(id)`.  Unlike every other deletion site
there is no `savePendingVerifications()` fallback, so without Redis the
local file keeps the record. -/
def deletePendingBgNotFound (st : EngineState) (id : String) : EngineState :=
  let mem := aremove id st.pendingMem
  match st.redis with
  | some r => { st with pendingMem := mem, redis := some (aremove id r) }
  | none => { st with pendingMem := mem }

/-- The save pattern of the modal handlers (index.js:2322-2329, 2399-2404):
`pendingVerifications.set(id, data)`, then `redisSavePending` when Redis is
configured, else `savePendingVerifications()`. -/
def savePendingStore (st : EngineState) (id : String) (rec : PendingRecord) : EngineState :=
  let mem := aset id rec st.pendingMem
  match st.redis with
  | some r => { st with pendingMem := mem, redis := some (aset id rec r) }
  | none => { st with pendingMem := mem, pendingFile := mem }

/-- `addVerifiedUser` (index.js:511-540): load the guild's verified list,
update the entry for `discordId` if present else append, save.  On the
per-guild association list this is an upsert. -/
def addVerifiedUserSt (st : EngineState) (id username : String) : EngineState :=
  { st with verified := aset id ⟨username⟩ st.verified }

/-- The pending record the *configured backend* holds for `id`: Redis when
configured, the local file otherwise. -/
def backendPending (st : EngineState) (id : String) : Option PendingRecord :=
  match st.redis with
  | some r => alookup id r
  | none => alookup id st.pendingFile

/-- Whether the *configured backend* still holds a pending record for `id`:
Redis when configured, the local file otherwise. -/
def backendHasPending (st : EngineState) (id : String) : Bool :=
  match st.redis with
  | some r => (alookup id r).isSome
  | none => (alookup id st.pendingFile).isSome

/-! ## Foreground quick check (`verify_tiktok_check` handler, index.js:2034-2226)

The per-attempt outcomes of `fetchTikTokBio` are supplied as a script
`Nat → Option FetchResult` (attempt number ↦ returned value; in the program
each value is `fetchTikTokBio` applied to that attempt's `FetchInput`).
A script value of `none` is the JS `null` return: the handler then evaluates
`result.accountNotFound` and throws a `TypeError`, which the interaction
handler's outer `catch` (index.js:2420-2433) turns into a generic error
reply, after the `finally` (index.js:2222-2225) has removed the
`activeVerifications` marker. -/

/-- Environment of the foreground check: whether
`interaction.guild.members.fetch` succeeds (index.js:2181), the configured
role id (`getVerifiedRoleId`, index.js:2184) and whether that role exists in
the guild's role cache (index.js:2185). -/
structure FgEnv where
  memberFetchOk : Bool
  roleId : Option String
  roleExists : Bool
deriving DecidableEq

/-- The distinct replies of the foreground check handler. -/
inductive FgReply where
  | noRecord
  | alreadyInProgress
  | accountNotFoundMsg
  | emptyBioMsg
  | couldNotRead
  | roleNotConfigured
  | success (code : String)
  | stillPending
  | genericError
deriving DecidableEq

/-- The loop variables of the quick-check attempt loop (index.js:2075-2079). -/
structure QuickState where
  verified : Bool
  lastBio : Option String
  foundCode : Option String
  accountNotFound : Bool
  emptyBio : Bool
deriving DecidableEq

/-- Initial loop variables. -/
def quickInit : QuickState := ⟨false, none, none, false, false⟩

/-- Output of the attempt loop: final loop variables, state (the loop only
touches the fetch counter), and whether a `TypeError` was thrown. -/
structure QuickOut where
  qs : QuickState
  st : EngineState
  threw : Bool
deriving DecidableEq

/-- The quick-check attempt loop (index.js:2082-2129), `fuel` attempts
remaining, `attempt` the 1-based attempt number. -/
def quickLoop (record : PendingRecord) (script : Nat → Option FetchResult) :
    Nat → Nat → QuickState → EngineState → QuickOut
  | 0, _, qs, st => ⟨qs, st, false⟩
  | fuel + 1, attempt, qs, st =>
    let st := { st with fetchCount := st.fetchCount + 1 }
    match script attempt with
    | none => ⟨qs, st, true⟩
    | some res =>
      if res.accountNotFound then ⟨{ qs with accountNotFound := true }, st, false⟩
      else
        let qs := if res.emptyBio then { qs with emptyBio := true } else qs
        if jsTruthyStr res.bio then
          let bio := res.bio.getD ""
          let qs := { qs with lastBio := some bio }
          match findMatchedCode bio record.code record.previousCodes with
          | some m => ⟨{ qs with verified := true, foundCode := some m }, st, false⟩
          | none => quickLoop record script fuel (attempt + 1) qs st
        else quickLoop record script fuel (attempt + 1) qs st

/-- Remove the `activeVerifications` marker (`Set.delete`). -/
def clearActive (st : EngineState) (id : String) : EngineState :=
  { st with active := st.active.filter (fun x => !(x == id)) }

/-- The body of the `verify_tiktok_check` handler once the record is in hand
and the `activeVerifications` guard has been passed (index.js:2065-2225):
mark the user active, run the quick-check loop inside the `try`, branch on
its outcome (2140-2221), and clear the marker in the `finally`
(2222-2225) — also when the loop threw, in which case the outer `catch`
(index.js:2420-2433) produces the generic error reply. -/
def verifyTikTokCheckRun (env : FgEnv) (script : Nat → Option FetchResult)
    (record : PendingRecord) (st : EngineState) (userId : String) :
    FgReply × EngineState :=
  let st := { st with active := userId :: st.active }
  let out := quickLoop record script 3 1 quickInit st
  let finish := fun (r : FgReply) (st : EngineState) => (r, clearActive st userId)
  if out.threw then finish .genericError out.st
  else
    let qs := out.qs
    let st := out.st
    if qs.accountNotFound then finish .accountNotFoundMsg (deletePendingAndSave st userId)
    else if qs.emptyBio && qs.lastBio.isNone then finish .emptyBioMsg st
    else if qs.lastBio.isNone then finish .couldNotRead st
    else if qs.verified then
      let st := deletePendingAndSave st userId
      if !env.memberFetchOk then finish .genericError st
      else
        match env.roleId with
        | none => finish .roleNotConfigured st
        | some _ =>
          if !env.roleExists then finish .roleNotConfigured st
          else
            let st := { st with granted := userId :: st.granted }
            let st := addVerifiedUserSt st userId record.username
            finish (.success (qs.foundCode.getD "")) st
    else finish .stillPending st

/-- Embedding of the `verify_tiktok_check` button handler
(index.js:2034-2226): the record lookup with Redis fallback and in-memory
caching (2039-2047), the `activeVerifications` guard (2057-2063), then the
check body. -/
def verifyTikTokCheck (env : FgEnv) (script : Nat → Option FetchResult)
    (st : EngineState) (userId : String) : FgReply × EngineState :=
  let lookedUp : Option PendingRecord × EngineState :=
    match alookup userId st.pendingMem with
    | some r => (some r, st)
    | none =>
      match st.redis with
      | some rd =>
        match alookup userId rd with
        | some r => (some r, { st with pendingMem := aset userId r st.pendingMem })
        | none => (none, st)
      | none => (none, st)
  match lookedUp with
  | (none, st) => (.noRecord, st)
  | (some record, st) =>
    if st.active.contains userId then (.alreadyInProgress, st)
    else verifyTikTokCheckRun env script record st userId

/-! ## Background sweep (`runBackgroundVerificationCheck`, index.js:883-1079)

The per-identity body of the sweep loop (index.js:908-1075).  Note that the
background path never consults the `activeVerifications` marker. -/

/-- Environment of the background per-identity check: guild cache hit
(index.js:1008), member fetch (1014), configured role id (1020) and role
cache hit (1026). -/
structure BgEnv where
  guildFound : Bool
  memberFound : Bool
  roleId : Option String
  roleExists : Bool
deriving DecidableEq

/-- Loop variables of the background rounds/attempts loops
(index.js:916-920): the JS `result` variable (`some none` = the fetch
returned `null`), `lastBio`, and the `verified` flag. -/
structure BgLoopSt where
  lastResult : Option (Option FetchResult)
  lastBio : Option String
  verified : Bool
deriving DecidableEq

/-- Output of a background loop stage. -/
structure BgOut where
  l : BgLoopSt
  st : EngineState
  threw : Bool
deriving DecidableEq

/-- The inner attempt loop
(`for (let attempt = 1; attempt <= attemptsPerRound && !verified; attempt++)`,
index.js:925-961), `fuel` attempts remaining in this round, `idx` the
0-based global attempt index passed to `fetchTikTokBio`. -/
def bgAttempts (record : PendingRecord) (userId : String)
    (script : Nat → Option FetchResult) :
    Nat → Nat → BgLoopSt → EngineState → BgOut
  | 0, _, l, st => ⟨l, st, false⟩
  | fuel + 1, idx, l, st =>
    if l.verified then ⟨l, st, false⟩
    else
      let st := { st with fetchCount := st.fetchCount + 1 }
      let r := script idx
      let l := { l with lastResult := some r }
      match r with
      | none => ⟨l, st, true⟩
      | some res =>
        if res.accountNotFound then ⟨l, deletePendingBgNotFound st userId, false⟩
        else
          let l :=
            if jsTruthyStr res.bio then
              let bio := res.bio.getD ""
              { l with lastBio := some bio,
                       verified := (findMatchedCode bio record.code record.previousCodes).isSome }
            else l
          bgAttempts record userId script fuel (idx + 1) l st

/-- Whether the JS `result` variable currently holds
`{ accountNotFound: true }` (the `if (result.accountNotFound) break` test at
index.js:963). -/
def bgResultNotFound (l : BgLoopSt) : Bool :=
  match l.lastResult with
  | some (some res) => res.accountNotFound
  | _ => false

/-- The outer rounds loop
(`for (let round = 1; round <= maxRounds && !verified; round++)`,
index.js:922-972), `fuel` rounds remaining, `round` the 1-based round
number; each round runs 10 attempts. -/
def bgRounds (record : PendingRecord) (userId : String)
    (script : Nat → Option FetchResult) :
    Nat → Nat → BgLoopSt → EngineState → BgOut
  | 0, _, l, st => ⟨l, st, false⟩
  | fuel + 1, round, l, st =>
    if l.verified then ⟨l, st, false⟩
    else
      let out := bgAttempts record userId script 10 ((round - 1) * 10) l st
      if out.threw then out
      else if bgResultNotFound out.l then out
      else bgRounds record userId script fuel (round + 1) out.l out.st

/-- Embedding of the per-identity body of `runBackgroundVerificationCheck`
(index.js:908-1075): the username guard (909), 12 rounds of 10 fetch
attempts, the `accountNotFound` / no-bio / not-verified early exits
(974-986), the match re-scan (988-1001) and the verified branch
(1003-1061); the surrounding `try`/`catch` (914/1073) makes a thrown
`TypeError` leave the state as it was at the throw. -/
def bgCheckOne (env : BgEnv) (script : Nat → Option FetchResult)
    (st : EngineState) (userId : String) (record : PendingRecord) : EngineState :=
  if record.username == "" || record.username == "undefined" then st
  else
    let out := bgRounds record userId script 12 1 ⟨none, none, false⟩ st
    if out.threw then out.st
    else
      let l := out.l
      let st := out.st
      if bgResultNotFound l then st
      else
        match l.lastBio with
        | none => st
        | some lastBio =>
          if !l.verified then st
          else
            match findMatchedCode lastBio record.code record.previousCodes with
            | none => st
            | some _ =>
              if !env.guildFound then st
              else if !env.memberFound then st
              else
                match env.roleId with
                | none => st
                | some _ =>
                  if !env.roleExists then st
                  else
                    let st := { st with granted := userId :: st.granted }
                    let st := addVerifiedUserSt st userId record.username
                    let st := deletePendingAndSave st userId
                    { st with notified := userId :: st.notified }

/-! ## Code issuance (`verify_tiktok_start`) and handle submission (modals) -/

/-- The temporary per-user data stored in `global.tempVerificationCodes`
(index.js:1980-1987) between code issuance and handle submission. -/
structure TempData where
  code : String
  previousCodes : List String
  guildId : String
deriving DecidableEq

/-- The `previousCodes` update on re-issuing a code (index.js:1973-1977):
`previousCodes.unshift(existingRecord.code); if (previousCodes.length > 5)
previousCodes.pop();` — push the old current code to the front, drop the
last (oldest) entry when the list exceeds 5. -/
def pushPreviousCode (previousCodes : List String) (oldCode : String) : List String :=
  let l := oldCode :: previousCodes
  if l.length > 5 then l.dropLast else l

/-- One full code re-issuance cycle for a user who already holds a pending
record: the `verify_tiktok_start` handler computes the new temp data
carrying the history forward (index.js:1966-1987, using `pushPreviousCode`
when the existing record's code is truthy) and the link modal persists it
with the submitted username (index.js:2311-2329).  The connection to the
two handlers is proved in the C6 theorem. -/
def reissueCycle (r : PendingRecord) (username newCode guildId : String) : PendingRecord :=
  ⟨username, newCode,
   if r.code == "" then r.previousCodes else pushPreviousCode r.previousCodes r.code,
   guildId⟩

/-- Embedding of the `verify_tiktok_start` button handler
(index.js:1948-2001): guarded by `activeVerifications` (1956), reads any
existing pending record from memory or Redis (1966-1970) to carry the code
history forward, and stores the new code *only* in the temporary in-memory
map (1979-1987) — the pending store and its backends are untouched. -/
def verifyTikTokStart (st : EngineState) (temp : List (String × TempData))
    (userId guildId newCode : String) : List (String × TempData) × EngineState :=
  if st.active.contains userId then (temp, st)
  else
    let existing :=
      match alookup userId st.pendingMem with
      | some r => some r
      | none =>
        match st.redis with
        | some rd => alookup userId rd
        | none => none
    let prev :=
      match existing with
      | some r => if r.code == "" then r.previousCodes else pushPreviousCode r.previousCodes r.code
      | none => []
    (aset userId ⟨newCode, prev, guildId⟩ temp, st)

/-- The TikTok username format check
`/^[a-zA-Z0-9_.]{2,24}$/.test(username)` (index.js:2270, 2386). -/
def validUsername (s : String) : Bool :=
  decide (2 ≤ s.data.length) && decide (s.data.length ≤ 24) &&
  s.data.all (fun c => isAsciiAlnum c || c == '_' || c == '.')

/-- Replies of the handle-submission modal handlers. -/
inductive LinkReply where
  | invalidFormat
  | accountMissing
  | noTempCode
  | saved
deriving DecidableEq

/-- Embedding of the `verify_tiktok_link_modal` handler from the format
validation onward (index.js:2268-2357).  `username` is the handle extracted
from the submitted link (extraction, index.js:2248-2266, happens upstream of
the validation gate modelled here); `accountExists` is the outcome of
`checkTikTokAccountExists`.  Only the `saved` branch writes a
`PendingVerification`, and it stores the validated username with the code
issued in step 1. -/
def verifyTikTokLinkModal (username : String) (accountExists : Bool)
    (temp : List (String × TempData)) (st : EngineState) (userId : String) :
    LinkReply × List (String × TempData) × EngineState :=
  if username == "" || username == "undefined" || !validUsername username then
    (.invalidFormat, temp, st)
  else if !accountExists then (.accountMissing, temp, st)
  else
    match alookup userId temp with
    | none => (.noTempCode, temp, st)
    | some t =>
      let pendingData : PendingRecord := ⟨username, t.code, t.previousCodes, t.guildId⟩
      (.saved, aremove userId temp, savePendingStore st userId pendingData)

/-- Embedding of the old-flow `verify_tiktok_modal` handler from its
validation onward (index.js:2360-2418): same format gate, then a fresh code
is generated and the record (with no `previousCodes` field) is persisted. -/
def verifyTikTokOldModal (username : String) (st : EngineState)
    (userId guildId newCode : String) : LinkReply × EngineState :=
  if username == "" || !validUsername username then (.invalidFormat, st)
  else (.saved, savePendingStore st userId ⟨username, newCode, [], guildId⟩)

/-! ## Startup read policy (`loadVerifiedUsers`, `loadGuildConfigs`,
`loadPendingVerifications`, index.js:451-484, 157-191, 370-399)

The Redis connection is modelled as unconfigured, failing (operations
throw and are caught), or ready with concrete contents; the local file is
the second argument (a missing file reads as the empty list). -/

/-- State of the optional Redis connection for a loader that would read
contents of type `α` from it. -/
inductive RedisConn (α : Type) where
  | unconfigured
  | failing
  | ready (data : α)
deriving DecidableEq

/-- Embedding of `loadVerifiedUsers` (index.js:451-484): with Redis ready it
returns exactly the `verified:*` keys found there — even when there are none
— and the file is consulted only when Redis is unconfigured or the read
throws. -/
def loadVerifiedUsers (redis : RedisConn (List (String × List VerifiedUser)))
    (file : List (String × List VerifiedUser)) : List (String × List VerifiedUser) :=
  match redis with
  | .ready data => data
  | .failing => file
  | .unconfigured => file

/-- Embedding of `loadGuildConfigs` (index.js:157-191): with Redis ready it
returns the `config:*` keys when at least one exists (`keys.length > 0`),
falling through to the file only when Redis holds no config keys at all or
the read throws. -/
def loadGuildConfigs (redis : RedisConn (List (String × String)))
    (file : List (String × String)) : List (String × String) :=
  match redis with
  | .ready data => if data.isEmpty then file else data
  | .failing => file
  | .unconfigured => file

/-- Embedding of `loadPendingVerifications` (index.js:370-399): with Redis
ready it returns exactly the `pending:*` keys found there and never reads
the file.  Unlike the other two loaders, its Redis read goes through
`redisGetAllPending` (index.js:350-367), whose own `catch` swallows every
Redis error and returns `{}`; the `catch`/file-fallback inside
`loadPendingVerifications` is therefore unreachable whenever Redis is
configured, so a failing Redis yields the *empty* map and the file is read
only when Redis is unconfigured. -/
def loadPendingVerifications (redis : RedisConn (List (String × PendingRecord)))
    (file : List (String × PendingRecord)) : List (String × PendingRecord) :=
  match redis with
  | .ready data => data
  | .failing => []
  | .unconfigured => file

/-- Modelled from the spec (§4.4 read policy / claim C9 wording): prefer the
durable backend, and for any key absent there fall back to the local file —
i.e. a per-key read-through merge.  Kept separate so it can be compared with
the source loaders. -/
def specReadThrough {α : Type} (redisData file : List (String × α)) : List (String × α) :=
  redisData ++ file.filter (fun p => (alookup p.1 redisData).isNone)

/-! ## Helper lemmas -/

theorem alookup_aset_self {α : Type} (k : String) (v : α) (l : List (String × α)) :
    alookup k (aset k v l) = some v := by
  simp [alookup, aset, List.find?]

theorem alookup_aremove_self {α : Type} (k : String) (l : List (String × α)) :
    alookup k (aremove k l) = none := by
  induction l with
  | nil => rfl
  | cons p t ih =>
    by_cases h : p.1 == k
    · simp_all [alookup, aremove]
    · simp_all [alookup, aremove, List.find?]

theorem toNat_ofNat_valid (n : Nat) (h : n < 0xD800) : (Char.ofNat n).toNat = n := by
  simp [Char.ofNat, Nat.isValidChar, h, Char.ofNatAux, Char.toNat, UInt32.toNat]

theorem upChar_lowChar (c : Char) : upChar (lowChar c) = upChar c := by
  by_cases h : 65 ≤ c.toNat ∧ c.toNat ≤ 90
  · have h1 : lowChar c = Char.ofNat (c.toNat + 32) := by unfold lowChar; rw [if_pos h]
    have hv : (Char.ofNat (c.toNat + 32)).toNat = c.toNat + 32 :=
      toNat_ofNat_valid _ (by omega)
    have h3 : upChar c = c := by unfold upChar; rw [if_neg (by omega)]
    rw [h1, h3]
    unfold upChar
    rw [hv, if_pos ⟨by omega, by omega⟩]
    have he : c.toNat + 32 - 32 = c.toNat := by omega
    rw [he, Char.ofNat_toNat]
  · have h1 : lowChar c = c := by unfold lowChar; rw [if_neg h]
    rw [h1]

theorem upChar_upChar (c : Char) : upChar (upChar c) = upChar c := by
  by_cases h : 97 ≤ c.toNat ∧ c.toNat ≤ 122
  · have h1 : upChar c = Char.ofNat (c.toNat - 32) := by unfold upChar; rw [if_pos h]
    have hv : (Char.ofNat (c.toNat - 32)).toNat = c.toNat - 32 :=
      toNat_ofNat_valid _ (by omega)
    rw [h1]
    conv_lhs => unfold upChar
    rw [hv, if_neg (by omega)]
  · have h1 : upChar c = c := by unfold upChar; rw [if_neg h]
    rw [h1]
    exact h1

theorem isPrefixOf_append (s y : List Char) : s.isPrefixOf (s ++ y) = true := by
  rw [List.isPrefixOf_iff_prefix]
  exact List.prefix_append s y

theorem containsSub_of_isPrefixOf (l s : List Char) (h : s.isPrefixOf l = true) :
    containsSub l s = true := by
  cases l with
  | nil =>
    cases s with
    | nil => rfl
    | cons a t => simp [List.isPrefixOf] at h
  | cons a t => simp [containsSub, h]

theorem containsSub_cons (c : Char) (l s : List Char) (h : containsSub l s = true) :
    containsSub (c :: l) s = true := by
  simp [containsSub, h]

theorem containsSub_append_mid (x s y : List Char) :
    containsSub (x ++ (s ++ y)) s = true := by
  induction x with
  | nil => simpa using containsSub_of_isPrefixOf (s ++ y) s (isPrefixOf_append s y)
  | cons a t ih => simpa using containsSub_cons a _ _ ih

theorem matchLoop_eq_find (b : String) (l : List String) :
    matchLoop b l = l.find? (codeMatches b) := by
  induction l with
  | nil => rfl
  | cons c rest ih =>
    unfold matchLoop
    cases h : codeMatches b c <;> simp [List.find?_cons, h, ih]

theorem data_append (a b : String) : (a ++ b).data = a.data ++ b.data := rfl

theorem jsToUpper_append (a b : String) : jsToUpper (a ++ b) = jsToUpper a ++ jsToUpper b := by
  simp [jsToUpper, data_append]
  rfl

theorem map_upChar_idem (l : List Char) : (l.map upChar).map upChar = l.map upChar := by
  rw [List.map_map]
  exact List.map_congr_left (fun c _ => upChar_upChar c)

theorem jsToUpper_jsToLower (s : String) : jsToUpper (jsToLower s) = jsToUpper s := by
  simp only [jsToUpper, jsToLower, List.map_map]
  congr 1
  exact List.map_congr_left (fun c _ => upChar_lowChar c)

theorem map_drop_upChar (l : List Char) (n : Nat) :
    (l.drop n).map upChar = (l.map upChar).drop n := List.map_drop upChar l n

theorem map_upChar_replaceFirstAux (pat rep l : List Char)
    (hl : l.map upChar = l) (hrep : rep.map upChar = rep) :
    (replaceFirstAux pat rep l).map upChar = replaceFirstAux pat rep l := by
  induction l with
  | nil => rfl
  | cons c t ih =>
    have hc : upChar c = c := by
      have := congrArg (fun xs => xs.headI) hl
      simpa using this
    have ht : t.map upChar = t := by
      have := congrArg List.tail hl
      simpa using this
    unfold replaceFirstAux
    by_cases h : pat.isPrefixOf (c :: t) = true
    · rw [if_pos h, List.map_append, hrep]
      have : ((c :: t).drop pat.length).map upChar = (c :: t).drop pat.length := by
        rw [map_drop_upChar]
        rw [show (c :: t).map upChar = c :: t by simp [hc, ht]]
      rw [this]
    · rw [if_neg h]
      simp [hc, ih ht]

theorem lower_case_code_matches (x y code : String) (prev : List String) :
    findMatchedCode (x ++ jsToLower code ++ y) code prev = some code := by
  have hinc : strIncludes (jsToUpper (x ++ jsToLower code ++ y)) (jsToUpper code) = true := by
    rw [jsToUpper_append, jsToUpper_append, jsToUpper_jsToLower]
    unfold strIncludes
    rw [data_append, data_append, List.append_assoc]
    exact containsSub_append_mid _ _ _
  have hcm : codeMatches (jsToUpper (x ++ jsToLower code ++ y)) code = true := by
    unfold codeMatches
    simp [hinc]
  unfold findMatchedCode allCodes matchLoop
  rw [if_pos hcm]

theorem typo_variant_matches (x y code : String) (prev : List String) :
    findMatchedCode (x ++ replaceFirst (jsToUpper code) "JAIME" "JAMIE" ++ y) code prev
      = some code := by
  set typo := replaceFirst (jsToUpper code) "JAIME" "JAMIE" with htypo
  have hstable : jsToUpper typo = typo := by
    rw [htypo]
    unfold jsToUpper replaceFirst
    congr 1
    apply map_upChar_replaceFirstAux
    · exact map_upChar_idem code.data
    · rfl
  have hinc : strIncludes (jsToUpper (x ++ typo ++ y)) typo = true := by
    rw [jsToUpper_append, jsToUpper_append, hstable]
    unfold strIncludes
    rw [data_append, data_append, List.append_assoc]
    exact containsSub_append_mid _ _ _
  have hcm : codeMatches (jsToUpper (x ++ typo ++ y)) code = true := by
    unfold codeMatches
    simp [hinc]
  unfold findMatchedCode allCodes matchLoop
  rw [if_pos hcm]

theorem quickLoop_active (record : PendingRecord) (script : Nat → Option FetchResult) :
    ∀ fuel attempt qs st, (quickLoop record script fuel attempt qs st).st.active = st.active := by
  intro fuel
  induction fuel with
  | zero => intro _ _ _; rfl
  | succ n ih =>
    intro attempt qs st
    unfold quickLoop
    cases script attempt with
    | none => rfl
    | some res =>
      dsimp only
      split
      · rfl
      · split
        · split
          · rfl
          · exact ih _ _ _
        · exact ih _ _ _

theorem deletePendingAndSave_active (st : EngineState) (id : String) :
    (deletePendingAndSave st id).active = st.active := by
  unfold deletePendingAndSave
  cases st.redis <;> rfl

theorem filter_ne_of_not_contains (l : List String) (u : String)
    (h : l.contains u = false) : l.filter (fun x => !(x == u)) = l := by
  induction l with
  | nil => rfl
  | cons a t ih =>
    simp only [List.contains_cons, Bool.or_eq_false_iff] at h
    have h1 : ¬ a = u := by
      have h2 := h.1
      rw [beq_eq_false_iff_ne] at h2
      exact fun he => h2 he.symm
    simp [List.filter_cons, h1, ih h.2]

theorem verifyTikTokCheckRun_active (env : FgEnv) (script : Nat → Option FetchResult)
    (record : PendingRecord) (st : EngineState) (u : String) :
    ((verifyTikTokCheckRun env script record st u).2).active
      = st.active.filter (fun x => !(x == u)) := by
  unfold verifyTikTokCheckRun
  have hq := quickLoop_active record script 3 1 quickInit { st with active := u :: st.active }
  dsimp only
  have hca : ∀ s : EngineState, s.active = u :: st.active →
      (clearActive s u).active = st.active.filter (fun x => !(x == u)) := by
    intro s hs
    simp [clearActive, hs, List.filter_cons]
  split
  · exact hca _ hq
  · split
    · exact hca _ (by rw [deletePendingAndSave_active]; exact hq)
    · split
      · exact hca _ hq
      · split
        · exact hca _ hq
        · split
          · split
            · exact hca _ (by rw [deletePendingAndSave_active]; exact hq)
            · split
              · exact hca _ (by rw [deletePendingAndSave_active]; exact hq)
              · split
                · exact hca _ (by rw [deletePendingAndSave_active]; exact hq)
                · exact hca _ (by
                    show (addVerifiedUserSt _ _ _).active = _
                    unfold addVerifiedUserSt
                    dsimp only
                    rw [deletePendingAndSave_active]
                    exact hq)
          · exact hca _ hq

theorem verifyTikTokCheck_active (env : FgEnv) (script : Nat → Option FetchResult)
    (st : EngineState) (u : String) :
    ((verifyTikTokCheck env script st u).2).active = st.active := by
  unfold verifyTikTokCheck
  cases h1 : alookup u st.pendingMem with
  | some r =>
    simp only [h1]
    by_cases hact : st.active.contains u = true
    · rw [if_pos hact]
    · rw [if_neg hact, verifyTikTokCheckRun_active]
      exact filter_ne_of_not_contains _ _ (by simpa using hact)
  | none =>
    simp only [h1]
    cases h2 : st.redis with
    | none => simp only [h2]
    | some rd =>
      simp only [h2]
      cases h3 : alookup u rd with
      | none => simp only [h3]
      | some r =>
        simp only [h3]
        dsimp only
        by_cases hact : st.active.contains u = true
        · rw [if_pos hact]
        · rw [if_neg hact, verifyTikTokCheckRun_active]
          exact filter_ne_of_not_contains _ _ (by simpa using hact)

theorem fg_match_eval (env : FgEnv) (script : Nat → Option FetchResult)
    (record : PendingRecord) (st : EngineState) (u bio m rid : String)
    (hs : script 1 = some ⟨some bio, false, false⟩)
    (hbio : (bio == "") = false)
    (hmatch : findMatchedCode bio record.code record.previousCodes = some m)
    (hmember : env.memberFetchOk = true)
    (hrid : env.roleId = some rid) (hrex : env.roleExists = true) :
    (verifyTikTokCheckRun env script record st u).1 = .success m
    ∧ alookup u (verifyTikTokCheckRun env script record st u).2.pendingMem = none
    ∧ backendHasPending (verifyTikTokCheckRun env script record st u).2 u = false
    ∧ alookup u (verifyTikTokCheckRun env script record st u).2.verified
        = some ⟨record.username⟩
    ∧ (verifyTikTokCheckRun env script record st u).2.granted = u :: st.granted
    ∧ (verifyTikTokCheckRun env script record st u).2.fetchCount = st.fetchCount + 1 := by
  have hloop : quickLoop record script 3 1 quickInit { st with active := u :: st.active } =
      ⟨⟨true, some bio, some m, false, false⟩,
       { st with active := u :: st.active, fetchCount := st.fetchCount + 1 }, false⟩ := by
    unfold quickLoop
    rw [hs]
    simp [jsTruthyStr, hbio, hmatch, quickInit]
  simp only [verifyTikTokCheckRun]
  rw [hloop]
  rcases hred : st.redis with _ | rd <;>
    simp [deletePendingAndSave, addVerifiedUserSt, clearActive, backendHasPending, hred,
          hmember, hrid, hrex, alookup_aremove_self, alookup_aset_self]

theorem bg_match_eval (benv : BgEnv) (script : Nat → Option FetchResult)
    (record : PendingRecord) (st : EngineState) (u bio m rid : String)
    (hs0 : script 0 = some ⟨some bio, false, false⟩)
    (hbio : (bio == "") = false)
    (hmatch : findMatchedCode bio record.code record.previousCodes = some m)
    (hu1 : (record.username == "") = false)
    (hu2 : (record.username == "undefined") = false)
    (hg : benv.guildFound = true) (hmem : benv.memberFound = true)
    (hrid : benv.roleId = some rid) (hrex : benv.roleExists = true) :
    alookup u (bgCheckOne benv script st u record).pendingMem = none
    ∧ backendHasPending (bgCheckOne benv script st u record) u = false
    ∧ alookup u (bgCheckOne benv script st u record).verified = some ⟨record.username⟩
    ∧ (bgCheckOne benv script st u record).granted = u :: st.granted
    ∧ (bgCheckOne benv script st u record).notified = u :: st.notified
    ∧ (bgCheckOne benv script st u record).fetchCount = st.fetchCount + 1 := by
  have hatt : bgAttempts record u script 10 0 ⟨none, none, false⟩ st =
      ⟨⟨some (some ⟨some bio, false, false⟩), some bio, true⟩,
       { st with fetchCount := st.fetchCount + 1 }, false⟩ := by
    unfold bgAttempts
    rw [hs0]
    simp only [Bool.false_eq_true, if_false, jsTruthyStr, hbio, Bool.not_false, if_true,
      Option.getD_some, hmatch, Option.isSome_some]
    unfold bgAttempts
    simp
  have hrounds : bgRounds record u script 12 1 ⟨none, none, false⟩ st =
      ⟨⟨some (some ⟨some bio, false, false⟩), some bio, true⟩,
       { st with fetchCount := st.fetchCount + 1 }, false⟩ := by
    unfold bgRounds
    simp only [Bool.false_eq_true, if_false]
    norm_num
    rw [hatt]
    simp only [bgResultNotFound, Bool.false_eq_true, if_false]
    unfold bgRounds
    simp
  simp only [bgCheckOne, hu1, hu2, Bool.or_self, Bool.false_eq_true, if_false]
  rw [hrounds]
  simp only [bgResultNotFound]
  rcases hred : st.redis with _ | rd <;>
    simp [deletePendingAndSave, addVerifiedUserSt, backendHasPending, hred, hmatch,
          hg, hmem, hrid, hrex, alookup_aremove_self, alookup_aset_self]

theorem verifyTikTokCheck_run_of (env : FgEnv) (script : Nat → Option FetchResult)
    (st : EngineState) (u : String) (record : PendingRecord)
    (hrec : alookup u st.pendingMem = some record)
    (hact : st.active.contains u = false) :
    verifyTikTokCheck env script st u = verifyTikTokCheckRun env script record st u := by
  unfold verifyTikTokCheck
  simp only [hrec]
  rw [if_neg (fun h => by rw [hact] at h; exact Bool.false_ne_true h)]

theorem verifyTikTokCheck_inProgress (env : FgEnv) (script : Nat → Option FetchResult)
    (st : EngineState) (u : String) (record : PendingRecord)
    (hrec : alookup u st.pendingMem = some record)
    (hact : st.active.contains u = true) :
    verifyTikTokCheck env script st u = (.alreadyInProgress, st) := by
  unfold verifyTikTokCheck
  simp only [hrec]
  rw [if_pos hact]

theorem fg_notFound_eval (env : FgEnv) (script : Nat → Option FetchResult)
    (record : PendingRecord) (st : EngineState) (u : String)
    (hs : script 1 = some ⟨none, true, false⟩) :
    (verifyTikTokCheckRun env script record st u).1 = .accountNotFoundMsg
    ∧ alookup u (verifyTikTokCheckRun env script record st u).2.pendingMem = none
    ∧ backendHasPending (verifyTikTokCheckRun env script record st u).2 u = false
    ∧ (verifyTikTokCheckRun env script record st u).2.granted = st.granted
    ∧ (verifyTikTokCheckRun env script record st u).2.fetchCount = st.fetchCount + 1 := by
  have hloop : quickLoop record script 3 1 quickInit { st with active := u :: st.active } =
      ⟨⟨false, none, none, true, false⟩,
       { st with active := u :: st.active, fetchCount := st.fetchCount + 1 }, false⟩ := by
    unfold quickLoop
    rw [hs]
    simp [quickInit]
  simp only [verifyTikTokCheckRun]
  rw [hloop]
  rcases hred : st.redis with _ | rd <;>
    simp [deletePendingAndSave, clearActive, backendHasPending, hred,
          alookup_aremove_self]

theorem bg_notFound_eval (benv : BgEnv) (script : Nat → Option FetchResult)
    (record : PendingRecord) (st : EngineState) (u : String)
    (hu1 : (record.username == "") = false)
    (hu2 : (record.username == "undefined") = false)
    (hs0 : script 0 = some ⟨none, true, false⟩) :
    bgCheckOne benv script st u record =
      deletePendingBgNotFound { st with fetchCount := st.fetchCount + 1 } u := by
  have hatt : bgAttempts record u script 10 0 ⟨none, none, false⟩ st =
      ⟨⟨some (some ⟨none, true, false⟩), none, false⟩,
       deletePendingBgNotFound { st with fetchCount := st.fetchCount + 1 } u, false⟩ := by
    unfold bgAttempts
    rw [hs0]
    simp
  have hrounds : bgRounds record u script 12 1 ⟨none, none, false⟩ st =
      ⟨⟨some (some ⟨none, true, false⟩), none, false⟩,
       deletePendingBgNotFound { st with fetchCount := st.fetchCount + 1 } u, false⟩ := by
    unfold bgRounds
    simp only [Bool.false_eq_true, if_false]
    norm_num
    rw [hatt]
    simp [bgResultNotFound]
  simp only [bgCheckOne, hu1, hu2, Bool.or_self, Bool.false_eq_true, if_false]
  rw [hrounds]
  simp [bgResultNotFound]

/-- **C1.** On both the foreground quick-check path and the background sweep
path, when a fetched bio matches a candidate code and the dispatcher
environment is intact (guild and member resolvable, trust role configured
and existing), the engine records the verified user (creating or
overwriting the entry), deletes the pending verification from the in-memory
map and from the configured backend, grants the role, and notifies the
member (the success reply on the foreground path, the DM on the background
path). -/
theorem C1_match_drives_verified (env : FgEnv) (benv : BgEnv)
    (stF stB : EngineState) (record : PendingRecord) (u bio m rid rid2 : String)
    (hrec : alookup u stF.pendingMem = some record)
    (hact : stF.active.contains u = false)
    (hbio : bio ≠ "")
    (hmatch : findMatchedCode bio record.code record.previousCodes = some m)
    (hmember : env.memberFetchOk = true)
    (hrid : env.roleId = some rid) (hrex : env.roleExists = true)
    (hg : benv.guildFound = true) (hmem : benv.memberFound = true)
    (hrid2 : benv.roleId = some rid2) (hrex2 : benv.roleExists = true)
    (hu1 : record.username ≠ "") (hu2 : record.username ≠ "undefined") :
    ((verifyTikTokCheck env (fun _ => some ⟨some bio, false, false⟩) stF u).1
        = .success m
      ∧ alookup u (verifyTikTokCheck env (fun _ => some ⟨some bio, false, false⟩) stF u).2.pendingMem = none
      ∧ backendHasPending (verifyTikTokCheck env (fun _ => some ⟨some bio, false, false⟩) stF u).2 u = false
      ∧ alookup u (verifyTikTokCheck env (fun _ => some ⟨some bio, false, false⟩) stF u).2.verified
          = some ⟨record.username⟩
      ∧ (verifyTikTokCheck env (fun _ => some ⟨some bio, false, false⟩) stF u).2.granted
          = u :: stF.granted)
    ∧ (alookup u (bgCheckOne benv (fun _ => some ⟨some bio, false, false⟩) stB u record).pendingMem = none
      ∧ backendHasPending (bgCheckOne benv (fun _ => some ⟨some bio, false, false⟩) stB u record) u = false
      ∧ alookup u (bgCheckOne benv (fun _ => some ⟨some bio, false, false⟩) stB u record).verified
          = some ⟨record.username⟩
      ∧ (bgCheckOne benv (fun _ => some ⟨some bio, false, false⟩) stB u record).granted
          = u :: stB.granted
      ∧ (bgCheckOne benv (fun _ => some ⟨some bio, false, false⟩) stB u record).notified
          = u :: stB.notified) := by
  have hbio' : (bio == "") = false := by rw [beq_eq_false_iff_ne]; exact hbio
  have hu1' : (record.username == "") = false := by rw [beq_eq_false_iff_ne]; exact hu1
  have hu2' : (record.username == "undefined") = false := by
    rw [beq_eq_false_iff_ne]; exact hu2
  constructor
  · rw [verifyTikTokCheck_run_of env _ stF u record hrec hact]
    have h := fg_match_eval env (fun _ => some ⟨some bio, false, false⟩) record stF u bio m rid
      rfl hbio' hmatch hmember hrid hrex
    exact ⟨h.1, h.2.1, h.2.2.1, h.2.2.2.1, h.2.2.2.2.1⟩
  · have h := bg_match_eval benv (fun _ => some ⟨some bio, false, false⟩) record stB u bio m rid2
      rfl hbio' hmatch hu1' hu2' hg hmem hrid2 hrex2
    exact ⟨h.1, h.2.1, h.2.2.1, h.2.2.2.1, h.2.2.2.2.1⟩

/-- Witness for C1 at a concrete input. -/
theorem C1_match_drives_verified_witness :
    ((verifyTikTokCheck ⟨true, some "role1", true⟩
        (fun _ => some ⟨some "hi ABCD-54321 bye", false, false⟩)
        ⟨[("u1", ⟨"foo", "ABCD-54321", [], "g1"⟩)], some [("u1", ⟨"foo", "ABCD-54321", [], "g1"⟩)],
         [], [], [], [], [], 0⟩ "u1").1 = .success "ABCD-54321"
      ∧ alookup "u1" (verifyTikTokCheck ⟨true, some "role1", true⟩
        (fun _ => some ⟨some "hi ABCD-54321 bye", false, false⟩)
        ⟨[("u1", ⟨"foo", "ABCD-54321", [], "g1"⟩)], some [("u1", ⟨"foo", "ABCD-54321", [], "g1"⟩)],
         [], [], [], [], [], 0⟩ "u1").2.pendingMem = none
      ∧ backendHasPending (verifyTikTokCheck ⟨true, some "role1", true⟩
        (fun _ => some ⟨some "hi ABCD-54321 bye", false, false⟩)
        ⟨[("u1", ⟨"foo", "ABCD-54321", [], "g1"⟩)], some [("u1", ⟨"foo", "ABCD-54321", [], "g1"⟩)],
         [], [], [], [], [], 0⟩ "u1").2 "u1" = false
      ∧ alookup "u1" (verifyTikTokCheck ⟨true, some "role1", true⟩
        (fun _ => some ⟨some "hi ABCD-54321 bye", false, false⟩)
        ⟨[("u1", ⟨"foo", "ABCD-54321", [], "g1"⟩)], some [("u1", ⟨"foo", "ABCD-54321", [], "g1"⟩)],
         [], [], [], [], [], 0⟩ "u1").2.verified = some ⟨"foo"⟩
      ∧ (verifyTikTokCheck ⟨true, some "role1", true⟩
        (fun _ => some ⟨some "hi ABCD-54321 bye", false, false⟩)
        ⟨[("u1", ⟨"foo", "ABCD-54321", [], "g1"⟩)], some [("u1", ⟨"foo", "ABCD-54321", [], "g1"⟩)],
         [], [], [], [], [], 0⟩ "u1").2.granted = "u1" :: [])
    ∧ (alookup "u1" (bgCheckOne ⟨true, true, some "role1", true⟩
        (fun _ => some ⟨some "hi ABCD-54321 bye", false, false⟩)
        ⟨[("u1", ⟨"foo", "ABCD-54321", [], "g1"⟩)], none, [], [], [], [], [], 0⟩ "u1"
        ⟨"foo", "ABCD-54321", [], "g1"⟩).pendingMem = none
      ∧ backendHasPending (bgCheckOne ⟨true, true, some "role1", true⟩
        (fun _ => some ⟨some "hi ABCD-54321 bye", false, false⟩)
        ⟨[("u1", ⟨"foo", "ABCD-54321", [], "g1"⟩)], none, [], [], [], [], [], 0⟩ "u1"
        ⟨"foo", "ABCD-54321", [], "g1"⟩) "u1" = false
      ∧ alookup "u1" (bgCheckOne ⟨true, true, some "role1", true⟩
        (fun _ => some ⟨some "hi ABCD-54321 bye", false, false⟩)
        ⟨[("u1", ⟨"foo", "ABCD-54321", [], "g1"⟩)], none, [], [], [], [], [], 0⟩ "u1"
        ⟨"foo", "ABCD-54321", [], "g1"⟩).verified = some ⟨"foo"⟩
      ∧ (bgCheckOne ⟨true, true, some "role1", true⟩
        (fun _ => some ⟨some "hi ABCD-54321 bye", false, false⟩)
        ⟨[("u1", ⟨"foo", "ABCD-54321", [], "g1"⟩)], none, [], [], [], [], [], 0⟩ "u1"
        ⟨"foo", "ABCD-54321", [], "g1"⟩).granted = "u1" :: []
      ∧ (bgCheckOne ⟨true, true, some "role1", true⟩
        (fun _ => some ⟨some "hi ABCD-54321 bye", false, false⟩)
        ⟨[("u1", ⟨"foo", "ABCD-54321", [], "g1"⟩)], none, [], [], [], [], [], 0⟩ "u1"
        ⟨"foo", "ABCD-54321", [], "g1"⟩).notified = "u1" :: []) :=
  C1_match_drives_verified ⟨true, some "role1", true⟩ ⟨true, true, some "role1", true⟩
    ⟨[("u1", ⟨"foo", "ABCD-54321", [], "g1"⟩)], some [("u1", ⟨"foo", "ABCD-54321", [], "g1"⟩)],
     [], [], [], [], [], 0⟩
    ⟨[("u1", ⟨"foo", "ABCD-54321", [], "g1"⟩)], none, [], [], [], [], [], 0⟩
    ⟨"foo", "ABCD-54321", [], "g1"⟩ "u1" "hi ABCD-54321 bye" "ABCD-54321" "role1" "role1"
    (by decide) (by decide) (by decide) (by decide) rfl rfl rfl rfl rfl rfl rfl
    (by decide) (by decide)

end TikTokVerify

namespace TikTokVerify

/-- **C2 counterexample.** The claim says a NotFound fetch deletes the
pending verification from both the in-memory map and the configured
backend.  On the background path with Redis unconfigured the configured
backend is the local file, and the file still holds the record afterwards
(the branch at index.js:929-934 has no `savePendingVerifications()`
fallback): at this concrete input the record is gone from memory but the
backend still has it. -/
theorem C2_counterexample :
    alookup "u1" (bgCheckOne ⟨true, true, some "role1", true⟩
      (fun _ => some ⟨none, true, false⟩)
      ⟨[("u1", ⟨"foo", "ABCD-54321", [], "g1"⟩)], none,
       [("u1", ⟨"foo", "ABCD-54321", [], "g1"⟩)], [], [], [], [], 0⟩ "u1"
      ⟨"foo", "ABCD-54321", [], "g1"⟩).pendingMem = none
    ∧ backendHasPending (bgCheckOne ⟨true, true, some "role1", true⟩
      (fun _ => some ⟨none, true, false⟩)
      ⟨[("u1", ⟨"foo", "ABCD-54321", [], "g1"⟩)], none,
       [("u1", ⟨"foo", "ABCD-54321", [], "g1"⟩)], [], [], [], [], 0⟩ "u1"
      ⟨"foo", "ABCD-54321", [], "g1"⟩) "u1" = true := by decide

/-- **C2 (amended).** A fetch classified NotFound on the first attempt
halts the check immediately (exactly one fetch is issued), no role is
granted, and the pending verification is deleted from the in-memory map —
and from Redis when Redis is configured.  The foreground path also rewrites
the local file when Redis is unconfigured; the background path does not, so
there the file keeps the record. -/
theorem C2_notFound_terminal (env : FgEnv) (benv : BgEnv)
    (stF stB : EngineState) (record : PendingRecord) (u : String)
    (hrec : alookup u stF.pendingMem = some record)
    (hact : stF.active.contains u = false)
    (hu1 : record.username ≠ "") (hu2 : record.username ≠ "undefined") :
    ((verifyTikTokCheck env (fun _ => some ⟨none, true, false⟩) stF u).1
        = .accountNotFoundMsg
      ∧ alookup u (verifyTikTokCheck env (fun _ => some ⟨none, true, false⟩) stF u).2.pendingMem
          = none
      ∧ backendHasPending (verifyTikTokCheck env (fun _ => some ⟨none, true, false⟩) stF u).2 u
          = false
      ∧ (verifyTikTokCheck env (fun _ => some ⟨none, true, false⟩) stF u).2.granted = stF.granted
      ∧ (verifyTikTokCheck env (fun _ => some ⟨none, true, false⟩) stF u).2.fetchCount
          = stF.fetchCount + 1)
    ∧ (alookup u (bgCheckOne benv (fun _ => some ⟨none, true, false⟩) stB u record).pendingMem
          = none
      ∧ (∀ rd, stB.redis = some rd →
          (bgCheckOne benv (fun _ => some ⟨none, true, false⟩) stB u record).redis
            = some (aremove u rd))
      ∧ (stB.redis = none →
          (bgCheckOne benv (fun _ => some ⟨none, true, false⟩) stB u record).pendingFile
            = stB.pendingFile)
      ∧ (bgCheckOne benv (fun _ => some ⟨none, true, false⟩) stB u record).granted = stB.granted
      ∧ (bgCheckOne benv (fun _ => some ⟨none, true, false⟩) stB u record).fetchCount
          = stB.fetchCount + 1) := by
  have hu1' : (record.username == "") = false := by rw [beq_eq_false_iff_ne]; exact hu1
  have hu2' : (record.username == "undefined") = false := by
    rw [beq_eq_false_iff_ne]; exact hu2
  constructor
  · rw [verifyTikTokCheck_run_of env _ stF u record hrec hact]
    exact fg_notFound_eval env _ record stF u rfl
  · rw [bg_notFound_eval benv _ record stB u hu1' hu2' rfl]
    refine ⟨?_, ?_, ?_, ?_, ?_⟩
    · rcases hred : stB.redis with _ | rd <;>
        simp [deletePendingBgNotFound, hred, alookup_aremove_self]
    · intro rd hred
      simp [deletePendingBgNotFound, hred]
    · intro hred
      simp [deletePendingBgNotFound, hred]
    · rcases hred : stB.redis with _ | rd <;> simp [deletePendingBgNotFound, hred]
    · rcases hred : stB.redis with _ | rd <;> simp [deletePendingBgNotFound, hred]

/-- Witness for C2 (amended) at a concrete input. -/
theorem C2_notFound_terminal_witness :
    alookup "u1" ((⟨[("u1", ⟨"foo", "ABCD-54321", [], "g1"⟩)],
        some [("u1", ⟨"foo", "ABCD-54321", [], "g1"⟩)], [], [], [], [], [], 0⟩
        : EngineState)).pendingMem = some ⟨"foo", "ABCD-54321", [], "g1"⟩
    ∧ (verifyTikTokCheck ⟨true, some "role1", true⟩ (fun _ => some ⟨none, true, false⟩)
        ⟨[("u1", ⟨"foo", "ABCD-54321", [], "g1"⟩)],
         some [("u1", ⟨"foo", "ABCD-54321", [], "g1"⟩)], [], [], [], [], [], 0⟩ "u1").1
        = .accountNotFoundMsg
    ∧ alookup "u1" (verifyTikTokCheck ⟨true, some "role1", true⟩
        (fun _ => some ⟨none, true, false⟩)
        ⟨[("u1", ⟨"foo", "ABCD-54321", [], "g1"⟩)],
         some [("u1", ⟨"foo", "ABCD-54321", [], "g1"⟩)], [], [], [], [], [], 0⟩ "u1").2.pendingMem
        = none := by
  have h := C2_notFound_terminal ⟨true, some "role1", true⟩ ⟨true, true, some "role1", true⟩
    ⟨[("u1", ⟨"foo", "ABCD-54321", [], "g1"⟩)],
     some [("u1", ⟨"foo", "ABCD-54321", [], "g1"⟩)], [], [], [], [], [], 0⟩
    ⟨[("u1", ⟨"foo", "ABCD-54321", [], "g1"⟩)], none, [], [], [], [], [], 0⟩
    ⟨"foo", "ABCD-54321", [], "g1"⟩ "u1" (by decide) (by decide) (by decide) (by decide)
  exact ⟨by decide, h.1.1, h.1.2.1⟩

end TikTokVerify

namespace TikTokVerify

/-- **C3.** The fetcher's classification is tagged for a transport error or
timeout (`Unavailable`, i.e. `{bio: null, accountNotFound: false, emptyBio:
false}`), for the NotFound sentinel, for a found bio and for an empty bio —
but a non-success HTTP status returns the *untagged* JS `null`
(index.js:719-722), contradicting the function's own documented return
shape (index.js:681).  A caller that then reads a field of the result
throws: the foreground check on such a response ends in the generic
interaction-error reply instead of a retryable tagged outcome. -/
theorem C3_http_status_untagged :
    fetchTikTokBio .transportError = some ⟨none, false, false⟩
    ∧ fetchTikTokBio (.httpResponse true ⟨some 10221, none, none, none, none, false⟩)
        = some ⟨none, true, false⟩
    ∧ fetchTikTokBio (.httpResponse true ⟨none, some "bio text", none, none, none, false⟩)
        = some ⟨some "bio text", false, false⟩
    ∧ fetchTikTokBio (.httpResponse true ⟨none, none, none, none, none, true⟩)
        = some ⟨some "", false, true⟩
    ∧ fetchTikTokBio (.httpResponse false ⟨none, none, none, none, none, false⟩) = none
    ∧ (verifyTikTokCheck ⟨true, some "role1", true⟩
        (fun _ => fetchTikTokBio (.httpResponse false ⟨none, none, none, none, none, false⟩))
        ⟨[("u1", ⟨"foo", "ABCD-54321", [], "g1"⟩)], none,
         [("u1", ⟨"foo", "ABCD-54321", [], "g1"⟩)], [], [], [], [], 0⟩ "u1").1
        = .genericError := by decide

end TikTokVerify

namespace TikTokVerify

/-- **C4.** The matcher checks the candidates in order `[currentCode] ++
history` — at most 6 when the history holds at most 5 codes — and returns
the first candidate whose upper-cased exact form or upper-cased
`JAIME`→`JAMIE` typo-substituted form is a substring of the upper-cased
bio, `none` otherwise.  Consequently a lower-cased code embedded anywhere
in the bio matches, and a bio containing the typo-substituted form of the
code matches. -/
theorem C4_matcher (bio code : String) (prev : List String)
    (hlen : prev.length ≤ 5) :
    findMatchedCode bio code prev
      = (allCodes code prev).find? (fun c =>
          strIncludes (jsToUpper bio) (jsToUpper c)
          || strIncludes (jsToUpper bio) (replaceFirst (jsToUpper c) "JAIME" "JAMIE"))
    ∧ (allCodes code prev).length ≤ 6
    ∧ (∀ x y : String, findMatchedCode (x ++ jsToLower code ++ y) code prev = some code)
    ∧ (∀ x y : String,
        findMatchedCode (x ++ replaceFirst (jsToUpper code) "JAIME" "JAMIE" ++ y) code prev
          = some code) := by
  refine ⟨?_, ?_, ?_, ?_⟩
  · unfold findMatchedCode
    rw [matchLoop_eq_find]
    rfl
  · simp only [allCodes, List.length_cons]
    omega
  · intro x y
    exact lower_case_code_matches x y code prev
  · intro x y
    exact typo_variant_matches x y code prev

/-- Witness for C4 at a concrete input: history of five codes, a lower-cased
current code embedded in the bio, and the typo-substituted form. -/
theorem C4_matcher_witness :
    (["A-1", "B-2", "C-3", "D-4", "E-5"] : List String).length ≤ 5
    ∧ (allCodes "JAIME-12345" ["A-1", "B-2", "C-3", "D-4", "E-5"]).length ≤ 6
    ∧ findMatchedCode ("yo " ++ jsToLower "JAIME-12345" ++ " !") "JAIME-12345"
        ["A-1", "B-2", "C-3", "D-4", "E-5"] = some "JAIME-12345"
    ∧ findMatchedCode
        ("yo " ++ replaceFirst (jsToUpper "JAIME-12345") "JAIME" "JAMIE" ++ " !")
        "JAIME-12345" ["A-1", "B-2", "C-3", "D-4", "E-5"] = some "JAIME-12345" := by
  have h := C4_matcher "yo jaime-12345 !" "JAIME-12345" ["A-1", "B-2", "C-3", "D-4", "E-5"]
    (by decide)
  exact ⟨by decide, h.2.1, h.2.2.1 "yo " " !", h.2.2.2 "yo " " !"⟩

end TikTokVerify

namespace TikTokVerify

/-- **C5 counterexample.** For the name `" A"` (leading whitespace), the
first whitespace-delimited token is `"A"`, so the claim's PREFIX is `"A"` —
but JS `split(/\s+/)` yields a leading empty element for such names, so the
code produces the default `"VERIFY"` prefix instead. -/
theorem C5_counterexample :
    generateCode " A" 0 = "VERIFY-10000"
    ∧ specNamePrefix " A" = "A"
    ∧ generateCode " A" 0 ≠ specNamePrefix " A" ++ "-" ++ toString (10000 + 0) := by
  decide

/-- **C5 (amended).** Every generated code has the form `PREFIX-NNNNN` with
`10000 ≤ NNNNN ≤ 99999` and a nonempty PREFIX of at most 10 characters;
PREFIX follows the claim's recipe (first whitespace-delimited token,
stripped to alphanumerics, upper-cased, truncated to 10, default
`"VERIFY"` when empty) whenever the name does not start with whitespace,
while a name starting with whitespace yields the empty first split element
and hence always the default `"VERIFY"`. -/
theorem C5_code_format (name : String) (r : Nat) (h : r < 90000) :
    generateCode name r = getNamePrefix name ++ "-" ++ toString (10000 + r)
    ∧ 10000 ≤ 10000 + r ∧ 10000 + r ≤ 99999
    ∧ getNamePrefix name ≠ ""
    ∧ (getNamePrefix name).data.length ≤ 10
    ∧ (∀ c, name.data.head? = some c → isJsWs c = false →
        getNamePrefix name = specNamePrefix name)
    ∧ (∀ c, name.data.head? = some c → isJsWs c = true →
        getNamePrefix name = "VERIFY") := by
  refine ⟨rfl, by omega, by omega, ?_, ?_, ?_, ?_⟩
  · unfold getNamePrefix
    dsimp only
    split
    · decide
    · rename_i hne
      intro he
      apply hne
      have hd := congrArg String.data he
      simp only [String.data] at hd
      rw [hd]
      rfl
  · unfold getNamePrefix
    dsimp only
    split
    · decide
    · simp only [String.data, List.length_take]
      omega
  · intro c hc hws
    cases hdata : name.data with
    | nil => rw [hdata] at hc; simp at hc
    | cons a tl =>
      rw [hdata] at hc
      simp only [List.head?_cons, Option.some.injEq] at hc
      subst hc
      unfold getNamePrefix specNamePrefix jsFirstSplitWs
      rw [hdata, List.dropWhile_cons]
      simp [hws]
  · intro c hc hws
    cases hdata : name.data with
    | nil => rw [hdata] at hc; simp at hc
    | cons a tl =>
      rw [hdata] at hc
      simp only [List.head?_cons, Option.some.injEq] at hc
      subst hc
      unfold getNamePrefix jsFirstSplitWs
      rw [hdata, List.takeWhile_cons]
      simp [hws]

/-- Witness for C5 (amended) at a concrete input. -/
theorem C5_code_format_witness :
    (2345 : Nat) < 90000
    ∧ generateCode "Jaime Server" 2345
        = getNamePrefix "Jaime Server" ++ "-" ++ toString (10000 + 2345)
    ∧ getNamePrefix "Jaime Server" ≠ "" := by
  have h := C5_code_format "Jaime Server" 2345 (by decide)
  exact ⟨by decide, h.1, h.2.2.2.1⟩

end TikTokVerify

namespace TikTokVerify

/-- **C6.** Re-issuing a code pushes the previous current code onto the
front of the history and drops the oldest (last) entry when the history
exceeds 5, so the history never grows beyond 5; the start handler stores
exactly this updated history in the temp data, and re-submitting the handle
persists it; after 6 sequential regenerations from a fresh record the
matcher's candidate set is exactly the current code plus the 5 most recent
prior codes, and excludes the 7th-oldest code. -/
theorem C6_history_bound :
    (∀ (prev : List String) (old : String),
      prev.length ≤ 5 → (pushPreviousCode prev old).length ≤ 5)
    ∧ (∀ (prev : List String) (old : String),
      (pushPreviousCode prev old).head? = some old)
    ∧ (∀ (st : EngineState) (temp : List (String × TempData)) (u g c un : String)
        (r : PendingRecord),
      alookup u st.pendingMem = some r → st.active.contains u = false →
      validUsername un = true → un ≠ "undefined" →
      alookup u (verifyTikTokLinkModal un true (verifyTikTokStart st temp u g c).1 st u).2.2.pendingMem
        = some (reissueCycle r un c g))
    ∧ (∀ (un g c1 c2 c3 c4 c5 c6 c7 : String),
      c1 ≠ "" → c2 ≠ "" → c3 ≠ "" → c4 ≠ "" → c5 ≠ "" → c6 ≠ "" →
      allCodes
        (reissueCycle (reissueCycle (reissueCycle (reissueCycle (reissueCycle (reissueCycle
          ⟨un, c1, [], g⟩ un c2 g) un c3 g) un c4 g) un c5 g) un c6 g) un c7 g).code
        (reissueCycle (reissueCycle (reissueCycle (reissueCycle (reissueCycle (reissueCycle
          ⟨un, c1, [], g⟩ un c2 g) un c3 g) un c4 g) un c5 g) un c6 g) un c7 g).previousCodes
        = [c7, c6, c5, c4, c3, c2]
      ∧ (c1 ∉ ([c2, c3, c4, c5, c6, c7] : List String) →
        c1 ∉ allCodes
          (reissueCycle (reissueCycle (reissueCycle (reissueCycle (reissueCycle (reissueCycle
            ⟨un, c1, [], g⟩ un c2 g) un c3 g) un c4 g) un c5 g) un c6 g) un c7 g).code
          (reissueCycle (reissueCycle (reissueCycle (reissueCycle (reissueCycle (reissueCycle
            ⟨un, c1, [], g⟩ un c2 g) un c3 g) un c4 g) un c5 g) un c6 g) un c7 g).previousCodes)) := by
  refine ⟨?_, ?_, ?_, ?_⟩
  · intro prev old hlen
    unfold pushPreviousCode
    dsimp only
    split
    · rename_i hgt
      simp only [List.length_dropLast, List.length_cons]
      omega
    · rename_i hgt
      simp only [List.length_cons] at hgt ⊢
      omega
  · intro prev old
    unfold pushPreviousCode
    dsimp only
    cases prev with
    | nil => simp
    | cons p ps => split <;> simp [List.dropLast]
  · intro st temp u g c un r hrec hact hv hun
    have hun' : (un == "undefined") = false := by rw [beq_eq_false_iff_ne]; exact hun
    have hne : (un == "") = false := by
      rw [beq_eq_false_iff_ne]
      intro he
      rw [he] at hv
      exact absurd hv (by decide)
    have hstart : alookup u (verifyTikTokStart st temp u g c).1
        = some ⟨c, if r.code == "" then r.previousCodes
                   else pushPreviousCode r.previousCodes r.code, g⟩ := by
      unfold verifyTikTokStart
      rw [if_neg (fun hh => by rw [hact] at hh; exact Bool.false_ne_true hh)]
      simp only [hrec]
      exact alookup_aset_self u _ temp
    unfold verifyTikTokLinkModal
    rw [hne, hun', hv]
    simp only [Bool.or_self, Bool.not_true, Bool.or_false, Bool.false_eq_true, if_false,
      Bool.not_false]
    rw [hstart]
    simp only [savePendingStore]
    rcases hred : st.redis with _ | rd <;>
      simp [hred, alookup_aset_self, reissueCycle]
  · intro un g c1 c2 c3 c4 c5 c6 c7 h1 h2 h3 h4 h5 h6
    have e1 : (c1 == "") = false := by rw [beq_eq_false_iff_ne]; exact h1
    have e2 : (c2 == "") = false := by rw [beq_eq_false_iff_ne]; exact h2
    have e3 : (c3 == "") = false := by rw [beq_eq_false_iff_ne]; exact h3
    have e4 : (c4 == "") = false := by rw [beq_eq_false_iff_ne]; exact h4
    have e5 : (c5 == "") = false := by rw [beq_eq_false_iff_ne]; exact h5
    have e6 : (c6 == "") = false := by rw [beq_eq_false_iff_ne]; exact h6
    constructor
    · simp [reissueCycle, pushPreviousCode, allCodes, e1, e2, e3, e4, e5, e6]
    · intro hnotin
      simp only [List.mem_cons, List.not_mem_nil, or_false, not_or] at hnotin
      simp [reissueCycle, pushPreviousCode, allCodes, e1, e2, e3, e4, e5, e6]
      obtain ⟨n2, n3, n4, n5, n6, n7⟩ := hnotin
      exact ⟨n7, n6, n5, n4, n3, n2⟩

end TikTokVerify

namespace TikTokVerify

/-- Witness for C6 at concrete inputs. -/
theorem C6_history_bound_witness :
    (["A-1", "B-2", "C-3", "D-4", "E-5"] : List String).length ≤ 5
    ∧ (pushPreviousCode ["A-1", "B-2", "C-3", "D-4", "E-5"] "F-6").length ≤ 5
    ∧ alookup "u1" (verifyTikTokLinkModal "alice" true
        (verifyTikTokStart
          ⟨[("u1", ⟨"alice", "OLD-1", [], "g1"⟩)], none, [], [], [], [], [], 0⟩
          [] "u1" "g1" "X-7").1
        ⟨[("u1", ⟨"alice", "OLD-1", [], "g1"⟩)], none, [], [], [], [], [], 0⟩
        "u1").2.2.pendingMem
        = some (reissueCycle ⟨"alice", "OLD-1", [], "g1"⟩ "alice" "X-7" "g1")
    ∧ allCodes
        (reissueCycle (reissueCycle (reissueCycle (reissueCycle (reissueCycle (reissueCycle
          ⟨"alice", "K-1", [], "g1"⟩ "alice" "K-2" "g1") "alice" "K-3" "g1") "alice" "K-4" "g1")
          "alice" "K-5" "g1") "alice" "K-6" "g1") "alice" "K-7" "g1").code
        (reissueCycle (reissueCycle (reissueCycle (reissueCycle (reissueCycle (reissueCycle
          ⟨"alice", "K-1", [], "g1"⟩ "alice" "K-2" "g1") "alice" "K-3" "g1") "alice" "K-4" "g1")
          "alice" "K-5" "g1") "alice" "K-6" "g1") "alice" "K-7" "g1").previousCodes
        = ["K-7", "K-6", "K-5", "K-4", "K-3", "K-2"]
    ∧ "K-1" ∉ allCodes
        (reissueCycle (reissueCycle (reissueCycle (reissueCycle (reissueCycle (reissueCycle
          ⟨"alice", "K-1", [], "g1"⟩ "alice" "K-2" "g1") "alice" "K-3" "g1") "alice" "K-4" "g1")
          "alice" "K-5" "g1") "alice" "K-6" "g1") "alice" "K-7" "g1").code
        (reissueCycle (reissueCycle (reissueCycle (reissueCycle (reissueCycle (reissueCycle
          ⟨"alice", "K-1", [], "g1"⟩ "alice" "K-2" "g1") "alice" "K-3" "g1") "alice" "K-4" "g1")
          "alice" "K-5" "g1") "alice" "K-6" "g1") "alice" "K-7" "g1").previousCodes := by
  have ha := C6_history_bound.1 ["A-1", "B-2", "C-3", "D-4", "E-5"] "F-6" (by decide)
  have hc := C6_history_bound.2.2.1
    ⟨[("u1", ⟨"alice", "OLD-1", [], "g1"⟩)], none, [], [], [], [], [], 0⟩
    [] "u1" "g1" "X-7" "alice" ⟨"alice", "OLD-1", [], "g1"⟩
    (by decide) (by decide) (by decide) (by decide)
  have hd := C6_history_bound.2.2.2 "alice" "g1" "K-1" "K-2" "K-3" "K-4" "K-5" "K-6" "K-7"
    (by decide) (by decide) (by decide) (by decide) (by decide) (by decide)
  exact ⟨by decide, ha, hc, hd.1, hd.2 (by decide)⟩

end TikTokVerify

namespace TikTokVerify

/-- **C7 counterexample.** The claim says the in-progress marker is
consulted before starting a background check and the holder of the marker
prevents any network fetch.  Concretely: with the marker set for `"u1"`,
the background check still issues a fetch (the fetch counter rises from 0
to 1) and even mutates the pending store — `runBackgroundVerificationCheck`
never reads `activeVerifications`. -/
theorem C7_counterexample :
    (⟨[("u1", ⟨"foo", "ABCD-54321", [], "g1"⟩)], none, [], [], ["u1"], [], [], 0⟩
      : EngineState).active.contains "u1" = true
    ∧ (bgCheckOne ⟨true, true, some "role1", true⟩ (fun _ => some ⟨none, true, false⟩)
        ⟨[("u1", ⟨"foo", "ABCD-54321", [], "g1"⟩)], none, [], [], ["u1"], [], [], 0⟩
        "u1" ⟨"foo", "ABCD-54321", [], "g1"⟩).fetchCount = 1
    ∧ alookup "u1" (bgCheckOne ⟨true, true, some "role1", true⟩
        (fun _ => some ⟨none, true, false⟩)
        ⟨[("u1", ⟨"foo", "ABCD-54321", [], "g1"⟩)], none, [], [], ["u1"], [], [], 0⟩
        "u1" ⟨"foo", "ABCD-54321", [], "g1"⟩).pendingMem = none := by decide

/-- **C7 (amended).** The per-identity marker guards the *foreground* path:
a second foreground caller is answered "check already in progress" with no
fetch issued and no state change, and the marker is removed on every exit
path of the foreground check (the final `active` set always equals the
initial one).  The background sweep, however, never consults the marker: it
issues its fetch even when the marker for that identity is set. -/
theorem C7_single_flight (env : FgEnv) (benv : BgEnv)
    (script : Nat → Option FetchResult) (st stB : EngineState)
    (u : String) (record recordB : PendingRecord)
    (hrec : alookup u st.pendingMem = some record)
    (hact : st.active.contains u = true)
    (hu1 : recordB.username ≠ "") (hu2 : recordB.username ≠ "undefined")
    (_hmarked : stB.active.contains u = true) :
    verifyTikTokCheck env script st u = (.alreadyInProgress, st)
    ∧ (∀ (env' : FgEnv) (script' : Nat → Option FetchResult) (st' : EngineState)
        (u' : String), (verifyTikTokCheck env' script' st' u').2.active = st'.active)
    ∧ (bgCheckOne benv (fun _ => some ⟨none, true, false⟩) stB u recordB).fetchCount
        = stB.fetchCount + 1 := by
  have hu1' : (recordB.username == "") = false := by rw [beq_eq_false_iff_ne]; exact hu1
  have hu2' : (recordB.username == "undefined") = false := by
    rw [beq_eq_false_iff_ne]; exact hu2
  refine ⟨?_, ?_, ?_⟩
  · exact verifyTikTokCheck_inProgress env script st u record hrec hact
  · intro env' script' st' u'
    exact verifyTikTokCheck_active env' script' st' u'
  · rw [bg_notFound_eval benv _ recordB stB u hu1' hu2' rfl]
    rcases hred : stB.redis with _ | rd <;> simp [deletePendingBgNotFound, hred]

/-- Witness for C7 (amended) at a concrete input. -/
theorem C7_single_flight_witness :
    (⟨[("u1", ⟨"foo", "ABCD-54321", [], "g1"⟩)], none, [], [], ["u1"], [], [], 0⟩
      : EngineState).active.contains "u1" = true
    ∧ verifyTikTokCheck ⟨true, some "role1", true⟩ (fun _ => some ⟨none, true, false⟩)
        ⟨[("u1", ⟨"foo", "ABCD-54321", [], "g1"⟩)], none, [], [], ["u1"], [], [], 0⟩ "u1"
        = (.alreadyInProgress,
           ⟨[("u1", ⟨"foo", "ABCD-54321", [], "g1"⟩)], none, [], [], ["u1"], [], [], 0⟩)
    ∧ (bgCheckOne ⟨true, true, some "role1", true⟩ (fun _ => some ⟨none, true, false⟩)
        ⟨[("u1", ⟨"foo", "ABCD-54321", [], "g1"⟩)], none, [], [], ["u1"], [], [], 0⟩
        "u1" ⟨"foo", "ABCD-54321", [], "g1"⟩).fetchCount = 0 + 1 := by
  have h := C7_single_flight ⟨true, some "role1", true⟩ ⟨true, true, some "role1", true⟩
    (fun _ => some ⟨none, true, false⟩)
    ⟨[("u1", ⟨"foo", "ABCD-54321", [], "g1"⟩)], none, [], [], ["u1"], [], [], 0⟩
    ⟨[("u1", ⟨"foo", "ABCD-54321", [], "g1"⟩)], none, [], [], ["u1"], [], [], 0⟩
    "u1" ⟨"foo", "ABCD-54321", [], "g1"⟩ ⟨"foo", "ABCD-54321", [], "g1"⟩
    (by decide) (by decide) (by decide) (by decide) (by decide)
  exact ⟨by decide, h.1, h.2.2⟩

end TikTokVerify

namespace TikTokVerify

/-- **C8.** When no trust role is configured at the moment a foreground
check finds a matching code, the success path is blocked — but the
foreground handler deletes the PendingVerification from memory and backend
*before* it checks the role (index.js:2174-2192), and creates no
VerifiedRecord, so the in-flight verification is lost and cannot complete
later without restarting.  The background path does it in the intended
order (role check before deletion, index.js:1020-1030) and leaves the
pending record untouched in the same configuration. -/
theorem C8_no_role_state :
    ((verifyTikTokCheck ⟨true, none, false⟩
        (fun _ => some ⟨some "hi ABCD-54321 bye", false, false⟩)
        ⟨[("u1", ⟨"foo", "ABCD-54321", [], "g1"⟩)],
         some [("u1", ⟨"foo", "ABCD-54321", [], "g1"⟩)], [], [], [], [], [], 0⟩ "u1").1
        = .roleNotConfigured
      ∧ alookup "u1" (verifyTikTokCheck ⟨true, none, false⟩
        (fun _ => some ⟨some "hi ABCD-54321 bye", false, false⟩)
        ⟨[("u1", ⟨"foo", "ABCD-54321", [], "g1"⟩)],
         some [("u1", ⟨"foo", "ABCD-54321", [], "g1"⟩)], [], [], [], [], [], 0⟩ "u1").2.pendingMem
        = none
      ∧ backendHasPending (verifyTikTokCheck ⟨true, none, false⟩
        (fun _ => some ⟨some "hi ABCD-54321 bye", false, false⟩)
        ⟨[("u1", ⟨"foo", "ABCD-54321", [], "g1"⟩)],
         some [("u1", ⟨"foo", "ABCD-54321", [], "g1"⟩)], [], [], [], [], [], 0⟩ "u1").2 "u1"
        = false
      ∧ alookup "u1" (verifyTikTokCheck ⟨true, none, false⟩
        (fun _ => some ⟨some "hi ABCD-54321 bye", false, false⟩)
        ⟨[("u1", ⟨"foo", "ABCD-54321", [], "g1"⟩)],
         some [("u1", ⟨"foo", "ABCD-54321", [], "g1"⟩)], [], [], [], [], [], 0⟩ "u1").2.verified
        = none
      ∧ (verifyTikTokCheck ⟨true, none, false⟩
        (fun _ => some ⟨some "hi ABCD-54321 bye", false, false⟩)
        ⟨[("u1", ⟨"foo", "ABCD-54321", [], "g1"⟩)],
         some [("u1", ⟨"foo", "ABCD-54321", [], "g1"⟩)], [], [], [], [], [], 0⟩ "u1").2.granted
        = [])
    ∧ (alookup "u1" (bgCheckOne ⟨true, true, none, false⟩
        (fun _ => some ⟨some "hi ABCD-54321 bye", false, false⟩)
        ⟨[("u1", ⟨"foo", "ABCD-54321", [], "g1"⟩)],
         some [("u1", ⟨"foo", "ABCD-54321", [], "g1"⟩)], [], [], [], [], [], 0⟩ "u1"
        ⟨"foo", "ABCD-54321", [], "g1"⟩).pendingMem = some ⟨"foo", "ABCD-54321", [], "g1"⟩
      ∧ backendHasPending (bgCheckOne ⟨true, true, none, false⟩
        (fun _ => some ⟨some "hi ABCD-54321 bye", false, false⟩)
        ⟨[("u1", ⟨"foo", "ABCD-54321", [], "g1"⟩)],
         some [("u1", ⟨"foo", "ABCD-54321", [], "g1"⟩)], [], [], [], [], [], 0⟩ "u1"
        ⟨"foo", "ABCD-54321", [], "g1"⟩) "u1" = true
      ∧ alookup "u1" (bgCheckOne ⟨true, true, none, false⟩
        (fun _ => some ⟨some "hi ABCD-54321 bye", false, false⟩)
        ⟨[("u1", ⟨"foo", "ABCD-54321", [], "g1"⟩)],
         some [("u1", ⟨"foo", "ABCD-54321", [], "g1"⟩)], [], [], [], [], [], 0⟩ "u1"
        ⟨"foo", "ABCD-54321", [], "g1"⟩).verified = none) := by decide

end TikTokVerify

namespace TikTokVerify

theorem alookup_cons {α : Type} (k : String) (p : String × α) (t : List (String × α)) :
    alookup k (p :: t) = if p.1 == k then some p.2 else alookup k t := by
  unfold alookup
  cases hp : p.1 == k <;> simp [List.find?_cons, hp]

theorem alookup_append {α : Type} (l1 l2 : List (String × α)) (g : String) :
    alookup g (l1 ++ l2) = (alookup g l1).or (alookup g l2) := by
  unfold alookup
  rw [List.find?_append]
  cases List.find? (fun p => p.1 == g) l1 <;> simp

theorem alookup_filter_isNone {α : Type} (kv : List (String × α)) (g : String)
    (hkv : alookup g kv = none) (file : List (String × α)) :
    alookup g (file.filter (fun p => (alookup p.1 kv).isNone)) = alookup g file := by
  induction file with
  | nil => rfl
  | cons p t ih =>
    rw [List.filter_cons]
    by_cases hp : (p.1 == g) = true
    · have hpg : p.1 = g := eq_of_beq hp
      have hkeep : ((alookup p.1 kv).isNone) = true := by rw [hpg, hkv]; rfl
      rw [if_pos hkeep, alookup_cons, alookup_cons, if_pos hp, if_pos hp]
    · by_cases hkeep : ((alookup p.1 kv).isNone) = true
      · rw [if_pos hkeep, alookup_cons, if_neg hp, ih, alookup_cons, if_neg hp]
      · rw [if_neg hkeep, ih, alookup_cons, if_neg hp]

theorem alookup_specReadThrough {α : Type} (kv file : List (String × α)) (g : String)
    (hkv : alookup g kv = none) :
    alookup g (specReadThrough kv file) = alookup g file := by
  unfold specReadThrough
  rw [alookup_append, hkv, Option.none_or]
  exact alookup_filter_isNone kv g hkv file

/-- **C9 counterexample.** With the durable backend configured and
reachable, a record present only in the local file is *not* returned:
`loadVerifiedUsers` returns exactly the (empty) Redis contents without
consulting the file, unlike the claim's per-key read-through merge; and
`loadGuildConfigs` ignores a file-only guild config as soon as Redis holds
any config key at all. -/
theorem C9_counterexample :
    alookup "g1" (loadVerifiedUsers (.ready []) [("g1", [⟨"alice"⟩])]) = none
    ∧ alookup "g1" (specReadThrough ([] : List (String × List VerifiedUser))
        [("g1", [⟨"alice"⟩])]) = some [⟨"alice"⟩]
    ∧ alookup "gB" (loadGuildConfigs (.ready [("gA", "role1")]) [("gB", "role2")]) = none
    ∧ alookup "gB" (specReadThrough [("gA", "role1")] [("gB", "role2")]) = some "role2" := by
  decide

/-- **C9 (amended).** The read policy is all-or-nothing, not per-key: when
Redis is configured and reachable, `loadVerifiedUsers` and
`loadPendingVerifications` return exactly the Redis contents and never read
the file (even when Redis holds no keys), and `loadGuildConfigs` reads the
file only when Redis holds no config key at all.  The file is used by
`loadVerifiedUsers` and `loadGuildConfigs` when Redis is unconfigured or
the read throws, but by `loadPendingVerifications` only when Redis is
unconfigured: its Redis errors are swallowed inside `redisGetAllPending`,
so a failing Redis yields the empty pending map and never the file.  Hence
a key present only in the local file is returned only in those fallback
situations. -/
theorem C9_read_policy :
    (∀ (kv file1 file2 : List (String × List VerifiedUser)),
      loadVerifiedUsers (.ready kv) file1 = kv
      ∧ loadVerifiedUsers (.ready kv) file1 = loadVerifiedUsers (.ready kv) file2
      ∧ loadVerifiedUsers .unconfigured file1 = file1
      ∧ loadVerifiedUsers .failing file1 = file1)
    ∧ (∀ (kv file1 file2 : List (String × PendingRecord)),
      loadPendingVerifications (.ready kv) file1 = kv
      ∧ loadPendingVerifications (.ready kv) file1 = loadPendingVerifications (.ready kv) file2
      ∧ loadPendingVerifications .unconfigured file1 = file1
      ∧ loadPendingVerifications .failing file1 = [])
    ∧ (∀ (kv file : List (String × String)),
      (kv ≠ [] → loadGuildConfigs (.ready kv) file = kv)
      ∧ (kv = [] → loadGuildConfigs (.ready kv) file = file)
      ∧ loadGuildConfigs .unconfigured file = file
      ∧ loadGuildConfigs .failing file = file)
    ∧ (∀ (kv file : List (String × List VerifiedUser)) (g : String) (v : List VerifiedUser),
      alookup g kv = none → alookup g file = some v →
      alookup g (loadVerifiedUsers (.ready kv) file) = none
      ∧ alookup g (specReadThrough kv file) = some v) := by
  refine ⟨?_, ?_, ?_, ?_⟩
  · intro kv file1 file2
    exact ⟨rfl, rfl, rfl, rfl⟩
  · intro kv file1 file2
    exact ⟨rfl, rfl, rfl, rfl⟩
  · intro kv file
    refine ⟨?_, ?_, rfl, rfl⟩
    · intro hne
      simp [loadGuildConfigs, hne]
    · intro he
      simp [loadGuildConfigs, he]
  · intro kv file g v hkv hfile
    refine ⟨hkv, ?_⟩
    rw [alookup_specReadThrough kv file g hkv]
    exact hfile

end TikTokVerify

namespace TikTokVerify

/-- Witness for C9 (amended) at concrete inputs. -/
theorem C9_read_policy_witness :
    ([("gA", "role1")] : List (String × String)) ≠ []
    ∧ loadGuildConfigs (.ready [("gA", "role1")]) [("gB", "role2")] = [("gA", "role1")]
    ∧ alookup "g1" ([] : List (String × List VerifiedUser)) = none
    ∧ alookup "g1" [("g1", [(⟨"alice"⟩ : VerifiedUser)])] = some [⟨"alice"⟩]
    ∧ alookup "g1" (loadVerifiedUsers (.ready []) [("g1", [⟨"alice"⟩])]) = none
    ∧ alookup "g1" (specReadThrough ([] : List (String × List VerifiedUser))
        [("g1", [⟨"alice"⟩])]) = some [⟨"alice"⟩] := by
  have h3 := (C9_read_policy.2.2.1 [("gA", "role1")] [("gB", "role2")]).1 (by decide)
  have h4 := C9_read_policy.2.2.2 ([] : List (String × List VerifiedUser))
    [("g1", [⟨"alice"⟩])] "g1" [⟨"alice"⟩] (by decide) (by decide)
  exact ⟨by decide, h3, by decide, by decide, h4.1, h4.2⟩

end TikTokVerify

namespace TikTokVerify

/-- **C10.** Starting verification persists nothing: the start handler
leaves the pending store (memory, Redis and file) untouched and writes only
the temporary in-memory code map.  A PendingVerification is persisted only
by the two modal handlers, and only after the submitted handle passes the
`^[a-zA-Z0-9_.]{2,24}$` validation; the persisted record carries the
validated username and the previously issued code, which — being generated
by `generateCode` — is never empty. -/
theorem C10_persist_gate :
    (∀ (st : EngineState) (temp : List (String × TempData)) (u g c : String),
      (verifyTikTokStart st temp u g c).2 = st)
    ∧ (∀ (username : String) (accountExists : Bool) (temp : List (String × TempData))
        (st : EngineState) (u : String),
      ((verifyTikTokLinkModal username accountExists temp st u).1 ≠ .saved →
        (verifyTikTokLinkModal username accountExists temp st u).2.2 = st)
      ∧ ((verifyTikTokLinkModal username accountExists temp st u).1 = .saved →
        validUsername username = true
        ∧ ∀ t : TempData, alookup u temp = some t →
            alookup u (verifyTikTokLinkModal username accountExists temp st u).2.2.pendingMem
              = some ⟨username, t.code, t.previousCodes, t.guildId⟩
            ∧ backendPending (verifyTikTokLinkModal username accountExists temp st u).2.2 u
              = some ⟨username, t.code, t.previousCodes, t.guildId⟩))
    ∧ (∀ (username : String) (st : EngineState) (u g c : String),
      (verifyTikTokOldModal username st u g c).1 = .saved →
        validUsername username = true
        ∧ alookup u (verifyTikTokOldModal username st u g c).2.pendingMem
            = some ⟨username, c, [], g⟩
        ∧ backendPending (verifyTikTokOldModal username st u g c).2 u
            = some ⟨username, c, [], g⟩)
    ∧ (∀ (name : String) (r : Nat), generateCode name r ≠ "") := by
  refine ⟨?_, ?_, ?_, ?_⟩
  · intro st temp u g c
    unfold verifyTikTokStart
    dsimp only
    split <;> rfl
  · intro username accountExists temp st u
    unfold verifyTikTokLinkModal
    by_cases h1 : (username == "" || username == "undefined" || !validUsername username) = true
    · rw [if_pos h1]
      exact ⟨fun _ => rfl, fun hs => nomatch hs⟩
    · rw [if_neg h1]
      by_cases h2 : (!accountExists) = true
      · rw [if_pos h2]
        exact ⟨fun _ => rfl, fun hs => nomatch hs⟩
      · rw [if_neg h2]
        cases ht : alookup u temp with
        | none =>
          exact ⟨fun _ => rfl, fun hs => nomatch hs⟩
        | some t0 =>
          dsimp only
          refine ⟨fun hns => absurd rfl hns, fun _ => ⟨?_, ?_⟩⟩
          · simp only [Bool.or_eq_true, not_or, Bool.not_eq_true] at h1
            have h3 := h1.2
            cases hv : validUsername username with
            | true => rfl
            | false => rw [hv] at h3; exact absurd h3 (by decide)
          · intro t htt
            injection htt with he
            subst he
            unfold savePendingStore backendPending
            rcases hred : st.redis with _ | rd <;> simp [hred, alookup_aset_self]
  · intro username st u g c
    unfold verifyTikTokOldModal
    by_cases h1 : (username == "" || !validUsername username) = true
    · rw [if_pos h1]
      intro hs
      exact nomatch hs
    · rw [if_neg h1]
      intro _
      refine ⟨?_, ?_, ?_⟩
      · simp only [Bool.or_eq_true, not_or, Bool.not_eq_true] at h1
        have h3 := h1.2
        cases hv : validUsername username with
        | true => rfl
        | false => rw [hv] at h3; exact absurd h3 (by decide)
      · unfold savePendingStore
        rcases hred : st.redis with _ | rd <;> simp [hred, alookup_aset_self]
      · unfold savePendingStore backendPending
        rcases hred : st.redis with _ | rd <;> simp [hred, alookup_aset_self]
  · intro name r he
    unfold generateCode at he
    have hd := congrArg String.data he
    simp only [data_append] at hd
    simp at hd

/-- Witness for C10 at a concrete input where the link modal persists. -/
theorem C10_persist_gate_witness :
    (verifyTikTokLinkModal "alice" true [("u1", ⟨"JAIME-12345", ["OLD-1"], "g1"⟩)]
        ⟨[], none, [], [], [], [], [], 0⟩ "u1").1 = .saved
    ∧ validUsername "alice" = true
    ∧ alookup "u1" (verifyTikTokLinkModal "alice" true
        [("u1", ⟨"JAIME-12345", ["OLD-1"], "g1"⟩)]
        ⟨[], none, [], [], [], [], [], 0⟩ "u1").2.2.pendingMem
        = some ⟨"alice", "JAIME-12345", ["OLD-1"], "g1"⟩
    ∧ backendPending (verifyTikTokLinkModal "alice" true
        [("u1", ⟨"JAIME-12345", ["OLD-1"], "g1"⟩)]
        ⟨[], none, [], [], [], [], [], 0⟩ "u1").2.2 "u1"
        = some ⟨"alice", "JAIME-12345", ["OLD-1"], "g1"⟩
    ∧ generateCode "Jaime" 2345 ≠ "" := by
  have h := (C10_persist_gate.2.1 "alice" true [("u1", ⟨"JAIME-12345", ["OLD-1"], "g1"⟩)]
    ⟨[], none, [], [], [], [], [], 0⟩ "u1").2 (by decide)
  have ht := h.2 ⟨"JAIME-12345", ["OLD-1"], "g1"⟩ (by decide)
  exact ⟨by decide, h.1, ht.1, ht.2, C10_persist_gate.2.2.2 "Jaime" 2345⟩

end TikTokVerify
